import Mathlib

/-!
Verification of the player-list-scraper core against its specification.

The Python sources under `src/` are shallowly embedded as executable Lean
definitions: pure functions become Lean functions, Python exceptions become
`Except`, `None`-able results become `Option`, machine floats appearing in the
LLM pipeline are modelled by `PyFloat` (a finite rational, NaN, or ±Infinity),
and the external collaborators that the spec itself declares abstract (the
HTTP fetcher and the LLM transport) are passed in as explicit oracle
parameters.  Definitions follow the source files they are named after:
`core/safe_parse.py`, `core/sanitizer.py`, `core/llm_client.py`,
`store_scraper_v3.py`, `investigators/base.py`,
`investigators/player_validator.py`, `investigators/store_investigator.py`,
and `investigators/newcomer_detector.py`.
-/

/-! ## String utilities shared by the embeddings

Python strings are sequences of code points, which matches Lean `String`
(`String.length`, `String.toList` count characters, as Python `len` and
indexing do).  Python `str.strip()` removes ASCII whitespace (Lean
`String.trim` agrees on space/tab/newline/carriage-return; the rare `\x0b`,
`\x0c` cases do not arise in the claims).  Substring containment (`in`),
`str.find`, and `str.startswith` are modelled below. -/

/-- First index (in characters) at which `pat` occurs as a sublist of `cs`,
Python `s.find(pat)` restricted to found/not-found. -/
def findSubIdx (pat : List Char) : List Char → Option Nat
  | [] => if pat = [] then some 0 else none
  | c :: cs =>
    if pat.isPrefixOf (c :: cs) then some 0
    else (findSubIdx pat cs).map (· + 1)

/-- Substring containment, Python `pat in s`: some index carries the
pattern as a prefix of the remaining characters. -/
def strContains (s pat : String) : Bool :=
  (findSubIdx pat.toList s.toList).isSome

/-- First index of a single character, Python `s.find(c)`. -/
def findCharIdx (c : Char) (cs : List Char) : Option Nat :=
  cs.findIdx? (· = c)

/-- Last index of a single character, Python `s.rfind(c)`. -/
def findCharIdxRev (c : Char) (cs : List Char) : Option Nat :=
  (findCharIdx c cs.reverse).map (fun i => cs.length - 1 - i)

/-- Digit run to a natural number (for Python `int` on a digit string and the
`re.search(r"\d+", ...)` based coercions). -/
def digitsToNat (cs : List Char) : Nat :=
  cs.foldl (fun acc c => acc * 10 + (c.toNat - '0'.toNat)) 0

/-- Python `str.lower()` character by character (`Char.toLower` covers the
ASCII range, which is all the lower-casing call sites compare against). -/
def strLower (s : String) : String :=
  String.mk (s.toList.map Char.toLower)

/-- Python `str.startswith(pre)` as a character-list prefix test. -/
def strStartsWith (s pre : String) : Bool :=
  pre.toList.isPrefixOf s.toList

/-- Python `str.endswith(suf)` as a character-list suffix test. -/
def strEndsWith (s suf : String) : Bool :=
  suf.toList.isSuffixOf s.toList

/-- The whitespace set of Python `str.strip()`. -/
def pyIsSpace (c : Char) : Bool :=
  c = ' ' ∨ c = '\t' ∨ c = '\n' ∨ c = '\r' ∨ c = '\x0b' ∨ c = '\x0c'

/-- Python `str.strip()`: drop whitespace from both ends. -/
def strTrim (s : String) : String :=
  String.mk (((s.toList.dropWhile pyIsSpace).reverse.dropWhile pyIsSpace).reverse)

/-- Splitter body for a single-character separator. -/
def splitOnCharGo (sep : Char) (cur : List Char) : List Char → List (List Char)
  | [] => [cur.reverse]
  | c :: cs =>
    if c = sep then cur.reverse :: splitOnCharGo sep [] cs
    else splitOnCharGo sep (c :: cur) cs

/-- Python `str.split(sep)` for the single-character separators the sources
use (`"."`, `"/"`). -/
def splitOnChar (sep : Char) (s : String) : List String :=
  (splitOnCharGo sep [] s.toList).map String.mk

/-! ## Python value and float model

`PyFloat` models a CPython `float`: a finite value (kept exact as a rational:
every IEEE double is rational, and none of the claims depend on rounding),
NaN, or a signed infinity.  `PyVal` models the dynamically typed arguments
reaching `safe_float` (`core/safe_parse.py`); list/dict payloads are
irrelevant there because `float()` raises `TypeError` on them regardless of
contents. -/

inductive PyFloat where
  | finite (q : ℚ)
  | nan
  | inf (pos : Bool)
deriving DecidableEq, Repr

/-- IEEE `<` on the model: NaN compares false with everything; `-inf` is
below every finite value and `+inf`; finite values compare as rationals. -/
def PyFloat.ltF : PyFloat → PyFloat → Bool
  | .nan, _ => false
  | _, .nan => false
  | .inf b, .inf c => !b && c
  | .inf b, .finite _ => !b
  | .finite _, .inf c => c
  | .finite q, .finite r => q < r

/-- Multiplication by one half, for `candidate.confidence *= 0.5`
(`newcomer_detector.py`); exact on doubles since it only shifts the
exponent. -/
def PyFloat.halve : PyFloat → PyFloat
  | .finite q => .finite (q / 2)
  | .nan => .nan
  | .inf b => .inf b

inductive PyVal where
  | vNone
  | vFloat (v : PyFloat)
  | vInt (n : ℤ)
  | vStr (s : String)
  | vBool (b : Bool)
  | vList
  | vDict
deriving DecidableEq, Repr

/-- Python `float(str)` on the subset of literals the pipeline can see:
optional sign, `nan` / `inf` / `infinity` (case-insensitive, surrounding
whitespace stripped), or a decimal literal `d+`, `d+.d*`, `.d+`.
(Exponent and underscore forms, which CPython also accepts, never arise in
the claims and are left out.)  `none` is CPython `ValueError`. -/
def pyStrToFloat (s : String) : Option PyFloat :=
  let t := strLower (strTrim s)
  let signed : Bool × String :=
    if strStartsWith t "-" then (false, String.mk (t.toList.drop 1))
    else if strStartsWith t "+" then (true, String.mk (t.toList.drop 1)) else (true, t)
  let pos := signed.1
  let u := signed.2
  if u = "nan" then some .nan
  else if u = "inf" ∨ u = "infinity" then some (.inf pos)
  else
    match splitOnChar '.' u with
    | [ip] =>
      if ip ≠ "" ∧ ip.toList.all Char.isDigit then
        let mag : ℚ := (digitsToNat ip.toList : ℚ)
        some (.finite (if pos then mag else -mag))
      else none
    | [ip, fp] =>
      if (ip ≠ "" ∨ fp ≠ "") ∧ ip.toList.all Char.isDigit ∧ fp.toList.all Char.isDigit then
        -- ip.fp as the exact rational (ip·10^k + fp) / 10^k
        let scale : ℕ := 10 ^ fp.length
        let mag : ℚ := mkRat (digitsToNat ip.toList * scale + digitsToNat fp.toList : ℕ) scale
        some (.finite (if pos then mag else -mag))
      else none
    | _ => none

/-- Python `float(value)` for the `PyVal` domain; `.error` is a
`ValueError`/`TypeError`. `value is None` is handled a step earlier in
`safe_float`, but `float(None)` itself would be a `TypeError`. -/
def pyFloatOfVal : PyVal → Except String PyFloat
  | .vNone => .error "TypeError"
  | .vFloat v => .ok v
  | .vInt n => .ok (.finite (n : ℚ))
  | .vStr s =>
    match pyStrToFloat s with
    | some v => .ok v
    | none => .error "ValueError"
  | .vBool b => .ok (.finite (if b then 1 else 0))
  | .vList => .error "TypeError"
  | .vDict => .error "TypeError"

/-! ## `core/safe_parse.py` : `safe_float` -/

/-- `safe_float(value, default=0.5, min_val=0.0, max_val=1.0)` from
`core/safe_parse.py`: `None` yields the default; a failed `float()`
conversion yields the default; NaN and ±Infinity yield the default;
otherwise the finite value is clamped to `max(min_val, min(max_val, x))`. -/
def safe_float (value : PyVal) (default : ℚ := mkRat 1 2) (min_val : ℚ := 0)
    (max_val : ℚ := 1) : ℚ :=
  match value with
  | .vNone => default
  | v =>
    match pyFloatOfVal v with
    | .error _ => default
    | .ok .nan => default
    | .ok (.inf _) => default
    | .ok (.finite q) => max min_val (min max_val q)

/-! ## JSON values

`Json` models the values `json.loads` can produce.  Numbers are kept as exact
rationals (the standard library also accepts `NaN`/`Infinity` literals, which
never matter for the claims and are left out).  Objects are association lists
in source order; since a Python `dict` built from duplicate keys keeps the
last occurrence, lookups scan from the right. -/

inductive Json where
  | null
  | bool (b : Bool)
  | num (q : ℚ)
  | str (s : String)
  | arr (xs : List Json)
  | obj (kvs : List (String × Json))

/-- Python truthiness of a JSON-derived value (`if not data`, `if sources`,
...). -/
def pyTruthy : Json → Bool
  | .null => false
  | .bool b => b
  | .num q => q ≠ 0
  | .str s => s ≠ ""
  | .arr xs => !xs.isEmpty
  | .obj kvs => !kvs.isEmpty

/-- Python `==` against the integer `0` (`total_stores == 0`): numbers
compare numerically, booleans are integers (`False == 0`), everything else
is not equal to `0`. -/
def pyEqZero : Json → Bool
  | .num q => q = 0
  | .bool b => !b
  | _ => false

/-- `data.get(key, default)` on a dict value; on a duplicate key the last
binding wins, as in a Python dict built by `json.loads`.  Only called on
`.obj` data (the sources guard with `isinstance(data, dict)` or crash
first — the crash cases are modelled where they matter). -/
def objGetD (j : Json) (k : String) (d : Json) : Json :=
  match j with
  | .obj kvs => ((kvs.reverse.find? (fun kv => kv.1 = k)).map (fun kv => kv.2)).getD d
  | _ => d

/-- `PyVal` view of a JSON value, for feeding `safe_float`
(`json.loads` maps `null` to Python `None`). -/
def pyValOfJson : Json → PyVal
  | .null => .vNone
  | .bool b => .vBool b
  | .num q => .vFloat (.finite q)
  | .str s => .vStr s
  | .arr _ => .vList
  | .obj _ => .vDict

/-- Python `float(v)` for a JSON-derived value, as it appears un-guarded in
`player_validator._parse_response` and `newcomer_detector._parse_response`
(`float(data.get("confidence", 0.5))`); `.error` is the raised
`ValueError`/`TypeError`. -/
def pyFloatOfJson (j : Json) : Except String PyFloat :=
  pyFloatOfVal (pyValOfJson j)

/-! ## An executable fragment of `json.loads`

The repository treats `json.loads` as the standard library; the claims about
`extract_json` and the response parsers are proved for an arbitrary parse
function `loads : String → Option Json`, and the concrete witnesses and
counterexamples instantiate it with `jsonParse` below, a recursive-descent
parser agreeing with `json.loads` on the escape-free inputs they use. -/

/-- Skip JSON whitespace. -/
def jsonSkipWs (cs : List Char) : List Char :=
  cs.dropWhile (fun c => c = ' ' ∨ c = '\n' ∨ c = '\t' ∨ c = '\r')

/-- Parse a JSON number (optional minus, integer part, optional fraction). -/
def jsonParseNum (cs : List Char) : Option (ℚ × List Char) :=
  let signed : Bool × List Char :=
    match cs with
    | '-' :: rest => (false, rest)
    | _ => (true, cs)
  let ip := signed.2.takeWhile Char.isDigit
  let rest1 := signed.2.dropWhile Char.isDigit
  if ip.isEmpty then none
  else
    match rest1 with
    | '.' :: rest2 =>
      let fp := rest2.takeWhile Char.isDigit
      let rest3 := rest2.dropWhile Char.isDigit
      if fp.isEmpty then none
      else
        -- ip.fp as the exact rational (ip·10^k + fp) / 10^k
        let scale : ℕ := 10 ^ fp.length
        let mag : ℚ := mkRat (digitsToNat ip * scale + digitsToNat fp : ℕ) scale
        some (if signed.1 then mag else -mag, rest3)
    | _ =>
      let mag : ℚ := (digitsToNat ip : ℚ)
      some (if signed.1 then mag else -mag, rest1)

mutual

/-- Parse one JSON value at the head of the input (fuelled recursion). -/
def jsonParseVal (fuel : Nat) (cs : List Char) : Option (Json × List Char) :=
  match fuel with
  | 0 => none
  | fuel + 1 =>
    match jsonSkipWs cs with
    | 'n' :: 'u' :: 'l' :: 'l' :: rest => some (.null, rest)
    | 't' :: 'r' :: 'u' :: 'e' :: rest => some (.bool true, rest)
    | 'f' :: 'a' :: 'l' :: 's' :: 'e' :: rest => some (.bool false, rest)
    | '"' :: rest =>
      let sChars := rest.takeWhile (· ≠ '"')
      (match rest.dropWhile (· ≠ '"') with
       | '"' :: rest2 => some (.str (String.mk sChars), rest2)
       | _ => none)
    | '[' :: rest =>
      (match jsonSkipWs rest with
       | ']' :: rest2 => some (.arr [], rest2)
       | _ =>
         (jsonParseItems fuel rest).map (fun r => (Json.arr r.1, r.2)))
    | '{' :: rest =>
      (match jsonSkipWs rest with
       | '}' :: rest2 => some (.obj [], rest2)
       | _ =>
         (jsonParseMembers fuel rest).map (fun r => (Json.obj r.1, r.2)))
    | other => (jsonParseNum other).map (fun r => (Json.num r.1, r.2))

/-- Parse comma-separated array items up to the closing bracket. -/
def jsonParseItems (fuel : Nat) (cs : List Char) : Option (List Json × List Char) :=
  match fuel with
  | 0 => none
  | fuel + 1 =>
    match jsonParseVal fuel cs with
    | none => none
    | some (v, rest) =>
      match jsonSkipWs rest with
      | ',' :: rest2 =>
        (jsonParseItems fuel rest2).map (fun r => (v :: r.1, r.2))
      | ']' :: rest2 => some ([v], rest2)
      | _ => none

/-- Parse comma-separated object members up to the closing brace. -/
def jsonParseMembers (fuel : Nat) (cs : List Char) :
    Option (List (String × Json) × List Char) :=
  match fuel with
  | 0 => none
  | fuel + 1 =>
    match jsonSkipWs cs with
    | '"' :: rest =>
      let kChars := rest.takeWhile (· ≠ '"')
      (match rest.dropWhile (· ≠ '"') with
       | '"' :: rest2 =>
         (match jsonSkipWs rest2 with
          | ':' :: rest3 =>
            (match jsonParseVal fuel rest3 with
             | none => none
             | some (v, rest4) =>
               match jsonSkipWs rest4 with
               | ',' :: rest5 =>
                 (jsonParseMembers fuel rest5).map
                   (fun r => ((String.mk kChars, v) :: r.1, r.2))
               | '}' :: rest5 => some ([(String.mk kChars, v)], rest5)
               | _ => none)
          | _ => none)
       | _ => none)
    | _ => none

end

/-- The `json.loads` fragment: a single value followed only by whitespace. -/
def jsonParse (s : String) : Option Json :=
  match jsonParseVal (s.length + 1) s.toList with
  | some (v, rest) => if (jsonSkipWs rest).isEmpty then some v else none
  | none => none

/-! ## `core/sanitizer.py` : `sanitize_url`

`urllib.parse.urlparse` is modelled to the depth `sanitize_url` uses it:
the `scheme` and `netloc` components.  CPython takes the scheme to be the
text before the first `:` when it is non-empty, starts with an ASCII letter,
and consists only of letters, digits and `+`/`-`/`.` (the scheme is
lower-cased); the netloc is the run after a leading `//` up to the first
`/`, `?` or `#`. -/

/-- Characters allowed in a URL scheme (`urllib.parse.scheme_chars`). -/
def urlSchemeChar (c : Char) : Bool :=
  ('a' ≤ c ∧ c ≤ 'z') ∨ ('A' ≤ c ∧ c ≤ 'Z') ∨ c.isDigit ∨ c = '+' ∨ c = '-' ∨ c = '.'

/-- ASCII letter test for the first scheme character. -/
def asciiAlpha (c : Char) : Bool :=
  ('a' ≤ c ∧ c ≤ 'z') ∨ ('A' ≤ c ∧ c ≤ 'Z')

/-- Split at the first `:`, returning the parts before and after it. -/
def splitAtColon : List Char → Option (List Char × List Char)
  | [] => none
  | c :: cs =>
    if c = ':' then some ([], cs)
    else (splitAtColon cs).map (fun p => (c :: p.1, p.2))

/-- Shape test for the text before the first colon: non-empty, ASCII-letter
first character, only scheme characters (the CPython `urlsplit` guard). -/
def schemeShape : List Char → Bool
  | [] => false
  | c0 :: rest => asciiAlpha c0 ∧ (c0 :: rest).all urlSchemeChar

/-- The scheme split of `urlparse`: `some (scheme_lowercased, rest)` when a
valid scheme ends at the first colon, otherwise `none` (the whole input is
then path/netloc material). -/
def urlSchemeSplit (cs : List Char) : Option (List Char × List Char) :=
  match splitAtColon cs with
  | none => none
  | some (pre, post) =>
    if schemeShape pre then some (pre.map Char.toLower, post) else none

/-- The netloc of `urlparse` given the text after the scheme (or the whole
text when there is no scheme): the run after a leading `//` up to the first
`/`, `?` or `#`. -/
def urlNetloc (cs : List Char) : List Char :=
  match cs with
  | '/' :: '/' :: rest => rest.takeWhile (fun c => ¬(c = '/' ∨ c = '?' ∨ c = '#'))
  | _ => []

/-- Scheme and netloc of `urlparse(sanitized)` as strings. -/
def urlparseSN (s : String) : String × String :=
  match urlSchemeSplit s.toList with
  | some (sch, rest) => (String.mk sch, String.mk (urlNetloc rest))
  | none => ("", String.mk (urlNetloc s.toList))

/-- Python `url.strip().replace('\n','').replace('\r','').replace('\t','')`
at the top of `sanitize_url`. -/
def stripClean (url : String) : String :=
  String.mk ((strTrim url).toList.filter (fun c => ¬(c = '\n' ∨ c = '\r' ∨ c = '\t')))

/-- File-extension blocklist `_FILE_EXTENSION_BLOCKLIST` from
`core/sanitizer.py` (a bare string with one of these after its last dot is
a filename, not a host). -/
def fileExtensionBlocklist : List String :=
  ["txt", "pdf", "xlsx", "xls", "csv", "doc", "docx",
   "ppt", "pptx", "zip", "rar", "7z", "tar", "gz",
   "png", "jpg", "jpeg", "gif", "bmp", "svg",
   "mp3", "mp4", "avi", "mov", "wmv",
   "py", "js", "ts", "java", "c", "cpp", "h", "rb", "go", "rs",
   "json", "yaml", "yml", "xml", "toml", "ini", "cfg", "conf",
   "log", "md", "rst"]

/-- `sanitize_url(url)` from `core/sanitizer.py`.  Empty input yields `""`;
whitespace is stripped and embedded newlines/tabs removed; a parsed scheme
outside `http`/`https`/empty yields `""`; a scheme-less input with a netloc
or with a dotted, non-blocklisted host part is prefixed with `https://`
(a dotted host whose extension is blocklisted, or an undotted bare string,
yields `""`); any result whose lower-case form contains `javascript:`,
`data:` or `vbscript:` yields `""`; results longer than 2000 characters
yield `""`. -/
def sanitize_url (url : String) : String :=
  if url = "" then ""
  else
    let s0 := stripClean url
    let p := urlparseSN s0
    if ¬(p.1 = "http" ∨ p.1 = "https" ∨ p.1 = "") then ""
    else
      let step : Option String :=
        if p.1 = "" ∧ p.2 ≠ "" then some ("https://" ++ s0)
        else if p.1 = "" ∧ p.2 = "" then
          let hostPart := (splitOnChar '/' s0).headD ""
          if strContains hostPart "." then
            let ext := strLower ((splitOnChar '.' hostPart).getLastD "")
            if ext ∈ fileExtensionBlocklist then none
            else some ("https://" ++ s0)
          else none
        else some s0
      match step with
      | none => ""
      | some s1 =>
        let lower := strLower s1
        if strContains lower "javascript:" ∨ strContains lower "data:" ∨
            strContains lower "vbscript:" then ""
        else if s1.length > 2000 then ""
        else s1

/-! ## `core/llm_client.py` : `LLMClient.extract_json`

The two regular expressions are modelled by their effect: the non-greedy
fenced pattern captures the text between the first <code>```json</code> and the next
<code>```</code>, with surrounding whitespace absorbed by the `\s*` anchors (i.e.
stripped); the greedy bracket patterns `\[[\s\S]*\]` / `\{[\s\S]*\}` span
from the first opening bracket to the last matching close anywhere after
it.  `json.loads` is an explicit parameter `loads`. -/

/-- Content of the first <code>```json ... ```</code> fenced block: between the first
occurrence of the opening fence and the next <code>```</code> after it, trimmed. -/
def fencedJsonContent (text : String) : Option String :=
  let cs := text.toList
  match findSubIdx "```json".toList cs with
  | none => none
  | some i =>
    let afterOpen := cs.drop (i + 7)
    match findSubIdx "```".toList afterOpen with
    | none => none
    | some j => some (strTrim (String.mk (afterOpen.take j)))

/-- Greedy single-regex span: from the first `copen` to the last `cclose`
in the text, when the close comes after the open (the match of
`\[[\s\S]*\]` or `\{[\s\S]*\}`). -/
def greedySpan (copen cclose : Char) (text : String) : Option String :=
  let cs := text.toList
  match findCharIdx copen cs with
  | none => none
  | some i =>
    match findCharIdxRev cclose cs with
    | none => none
    | some j => if i < j then some (String.mk ((cs.take (j + 1)).drop i)) else none

/-- The bracket-matching fallback phase of `extract_json`: decide the attempt
order from the first occurrence indices of `[` and `{`, try the first
pattern, then the other. -/
def bracketPhase (loads : String → Option Json) (text : String) : Option Json :=
  let firstBracket := findCharIdx '[' text.toList
  let firstBrace := findCharIdx '{' text.toList
  let tryArr := (greedySpan '[' ']' text).bind loads
  let tryObj := (greedySpan '{' '}' text).bind loads
  let arrFirst : Bool :=
    match firstBracket, firstBrace with
    | some i, some j => decide (i < j)
    | some _, none => true
    | none, _ => false
  if arrFirst then tryArr <|> tryObj else tryObj <|> tryArr

/-- `LLMClient.extract_json(text)` from `core/llm_client.py`: empty text
yields `None`; a fenced `json` block is parsed first and returned when it
parses; otherwise (block absent or unparseable) the greedy bracket spans are
tried in order of first bracket appearance. -/
def extract_json (loads : String → Option Json) (text : String) : Option Json :=
  if text = "" then none
  else
    match fencedJsonContent text with
    | some content =>
      match loads content with
      | some j => some j
      | none => bracketPhase loads text
    | none => bracketPhase loads text

/-- Discriminator for the claim that `extract_json` only returns dicts,
lists, or `None`. -/
def isDictOrList : Json → Bool
  | .arr _ => true
  | .obj _ => true
  | _ => false

/-! ## `store_scraper_v3.py` : data model and `MultiStrategyScraper.scrape`

`StoreInfo` and `ScrapingResult` follow the dataclasses; the purely
observational fields `pages_visited` and `elapsed_time` (wall clock and
per-strategy page counters, untouched by every claim) are left out of the
result model.  A strategy execution is abstracted to its observable outcome:
its fixed `name` and either a store list or a raised exception
(`StrategyRun`), since `MultiStrategyScraper.scrape` consumes strategies
only through `strategy.scrape(...)` inside `try/except`. -/

structure StoreInfo where
  company_name : String
  store_name : String
  address : String
  phone : String := ""
  url : String := ""
  prefecture : String := ""
  business_hours : String := ""
  fax : String := ""
  email : String := ""
deriving DecidableEq, Repr

/-- `StoreInfo.is_valid`: non-blank store name and a non-blank address or
phone. -/
def StoreInfo.is_valid (s : StoreInfo) : Bool :=
  strTrim s.store_name ≠ "" ∧ (strTrim s.address ≠ "" ∨ strTrim s.phone ≠ "")

structure ScrapingResult where
  company_name : String
  url : String
  stores : List StoreInfo
  strategy_used : String
  errors : List String := []
deriving Repr

/-- The 47 prefecture names (`PREFECTURES` in `store_scraper_v3.py`). -/
def PREFECTURES : List String :=
  ["北海道", "青森県", "岩手県", "宮城県", "秋田県", "山形県", "福島県",
   "茨城県", "栃木県", "群馬県", "埼玉県", "千葉県", "東京都", "神奈川県",
   "新潟県", "富山県", "石川県", "福井県", "山梨県", "長野県", "岐阜県",
   "静岡県", "愛知県", "三重県", "滋賀県", "京都府", "大阪府", "兵庫県",
   "奈良県", "和歌山県", "鳥取県", "島根県", "岡山県", "広島県", "山口県",
   "徳島県", "香川県", "愛媛県", "高知県", "福岡県", "佐賀県", "長崎県",
   "熊本県", "大分県", "宮崎県", "鹿児島県", "沖縄県"]

/-- The noise test of `StaticHTMLStrategy._deduplicate`: each regex in
`noise_patterns` rendered by its effect on a store name (`^...` becomes a
`startsWith`, a bare pattern a containment test, `^...$` an equality, and
`^\d+件$` an all-digits-plus-`件` shape; `お問い?合わせ` expands to its two
alternatives). -/
def isNoiseStoreName (name : String) : Bool :=
  strStartsWith name "市区町村" ∨
  strStartsWith name "店舗を探す" ∨
  strStartsWith name "教室を探す" ∨
  strStartsWith name "近くの教室" ∨
  strStartsWith name "検索" ∨
  strStartsWith name "エリア" ∨
  strContains name "県の中古車" ∨
  strContains name "店舗一覧" ∨
  strContains name "教室一覧" ∨
  name ∈ ["北海道", "東北", "関東", "中部", "関西", "中国", "四国", "九州", "甲信越"] ∨
  (strEndsWith name "件" ∧ name.toList.dropLast ≠ [] ∧
    (name.toList.dropLast).all Char.isDigit) ∨
  strContains name "魔法" ∨
  strContains name "恐るべし" ∨
  strContains name "おトク" ∨
  strContains name "キャンペーン" ∨
  strContains name "フェア" ∨
  strContains name "セール" ∨
  strContains name "お知らせ" ∨
  strContains name "ニュース" ∨
  strContains name "新着" ∨
  strStartsWith name "お問合わせ" ∨
  strStartsWith name "お問い合わせ" ∨
  name = "アクセス" ∨
  name = "詳細" ∨
  strStartsWith name "もっと見る"

/-- The per-record filters of `StaticHTMLStrategy._deduplicate` before the
seen-key check: noise name, name length outside 2..50, address equal to the
name, or a non-empty address lacking both `〒` and a prefecture name while
shorter than 10 characters. -/
def storePassesFilters (s : StoreInfo) : Bool :=
  ¬isNoiseStoreName s.store_name ∧
  ¬(s.store_name.length < 2 ∨ s.store_name.length > 50) ∧
  ¬(s.address ≠ "" ∧ s.address = s.store_name) ∧
  ¬(s.address ≠ "" ∧ ¬strContains s.address "〒" ∧
      ¬PREFECTURES.any (fun p => strContains s.address p) ∧ s.address.length < 10)

/-- Loop body of `StaticHTMLStrategy._deduplicate`: keep the first record
for each store name (`key = store.store_name` — the internal pass keys on
the name alone), dropping filtered records. -/
def deduplicateGo (seen : List String) : List StoreInfo → List StoreInfo
  | [] => []
  | s :: rest =>
    if ¬storePassesFilters s then deduplicateGo seen rest
    else if s.store_name ∈ seen then deduplicateGo seen rest
    else s :: deduplicateGo (s.store_name :: seen) rest

/-- `StaticHTMLStrategy._deduplicate(stores)` (the same method body serves
the browser and AI strategies through inheritance). -/
def StaticHTMLStrategy.deduplicate (stores : List StoreInfo) : List StoreInfo :=
  deduplicateGo [] stores

/-- Aggregation key of the final dedup in `MultiStrategyScraper.scrape`:
`f"{store.store_name}_{store.address}"`. -/
def dedupKey (s : StoreInfo) : String :=
  s.store_name ++ "_" ++ s.address

/-- Loop body of the final dedup: keep the first record per composite key. -/
def dedupByKeyGo (seen : List String) : List StoreInfo → List StoreInfo
  | [] => []
  | s :: rest =>
    if dedupKey s ∈ seen then dedupByKeyGo seen rest
    else s :: dedupByKeyGo (dedupKey s :: seen) rest

/-- The `(store_name, address)`-keyed dedup at the end of
`MultiStrategyScraper.scrape`. -/
def dedupByNameAddress (stores : List StoreInfo) : List StoreInfo :=
  dedupByKeyGo [] stores

/-- Observable outcome of one strategy inside `MultiStrategyScraper.scrape`:
the strategy's `name` and either the store list its `scrape` returned or the
exception message it raised. -/
structure StrategyRun where
  name : String
  outcome : Except String (List StoreInfo)

/-- The strategy loop of `MultiStrategyScraper.scrape`, returning
`(all_stores, strategy_used, errors)`: a strategy returning a non-empty
list of at least `minStores` stores REPLACES the accumulator and breaks; a
non-empty list below the threshold is appended to the accumulator; an empty
list changes nothing; an exception appends an error message and moves on. -/
def scrapeLoop (minStores : Nat) (runs : List StrategyRun)
    (allStores : List StoreInfo) (errors : List String) :
    List StoreInfo × String × List String :=
  match runs with
  | [] => (allStores, "", errors)
  | r :: rest =>
    match r.outcome with
    | .ok stores =>
      if ¬stores.isEmpty ∧ stores.length ≥ minStores then (stores, r.name, errors)
      else if ¬stores.isEmpty then scrapeLoop minStores rest (allStores ++ stores) errors
      else scrapeLoop minStores rest allStores errors
    | .error e =>
      scrapeLoop minStores rest allStores (errors ++ ["戦略 " ++ r.name ++ " エラー: " ++ e])

/-- `MultiStrategyScraper.scrape(company_name, url)` over the outcomes of its
ordered strategies (`static_html`, `browser_automation`, `ai_inference`):
run the loop, label `"combined"` when no strategy met the threshold but
partial stores exist, then dedup on the composite key.  `min_stores`
defaults to 3. -/
def MultiStrategyScraper.scrape (minStores : Nat) (company_name url : String)
    (runs : List StrategyRun) : ScrapingResult :=
  let r := scrapeLoop minStores runs [] []
  let strategyUsed := if r.2.1 = "" ∧ ¬r.1.isEmpty then "combined" else r.2.1
  { company_name := company_name
    url := url
    stores := dedupByNameAddress r.1
    strategy_used := strategyUsed
    errors := r.2.2 }

/-! ## `investigators/base.py` : result types

`ValidationResult` keeps the fields at least one claim observes (status,
alert level, change type, confidence, the review flag, the identity/echo
strings); the pure-diagnostics passthrough fields (`change_details`,
`source_urls`, `news_summary`, `checked_at` and the `*_current` echoes) are
left out.  Confidence is a `PyFloat` because `player_validator` stores the
raw `float(...)` conversion. -/

inductive ChangeType where
  | withdrawal
  | merger
  | company_rename
  | service_rename
  | url_change
  | new_entry
  | no_change
deriving DecidableEq, Repr

inductive ValidationStatus where
  | confirmed
  | unchanged
  | uncertain
  | error
deriving DecidableEq, Repr

inductive AlertLevel where
  | critical
  | warning
  | info
  | ok
deriving DecidableEq, Repr

/-- `determine_alert_level(change_type)` from `investigators/base.py`. -/
def determine_alert_level : ChangeType → AlertLevel
  | .withdrawal => .critical
  | .merger => .critical
  | .company_rename => .warning
  | .service_rename => .warning
  | .url_change => .info
  | .new_entry => .info
  | .no_change => .ok

structure ValidationResult where
  player_name_original : String
  status : ValidationStatus
  alert_level : AlertLevel
  change_type : ChangeType
  url_original : String := ""
  confidence : PyFloat := .finite 0
  needs_manual_review : Bool := false
  raw_response : String := ""
deriving DecidableEq, Repr

/-- `ValidationResult.create_error` from `investigators/base.py`. -/
def ValidationResult.create_error (player_name : String) (url : String := "")
    (error_message : String := "") : ValidationResult :=
  { player_name_original := player_name
    status := .error
    alert_level := .info
    change_type := .no_change
    url_original := url
    confidence := .finite 0
    needs_manual_review := true
    raw_response := error_message }

/-- `ValidationResult.create_uncertain` from `investigators/base.py`. -/
def ValidationResult.create_uncertain (player_name : String) (url : String := "")
    (_reason : String := "") : ValidationResult :=
  { player_name_original := player_name
    status := .uncertain
    alert_level := .warning
    change_type := .no_change
    url_original := url
    confidence := .finite (mkRat 2 5)
    needs_manual_review := true }

/-- `StoreInvestigationResult` from `investigators/base.py`, with the
diagnostic fields no claim observes (`direct_stores`, `franchise_stores`,
`prefecture_distribution`, `investigation_date`) left out.  `total_stores`
stays a `Json` because `_parse_ai_response` forwards non-string, non-numeric
JSON values unchanged. -/
structure StoreInvestigationResult where
  company_name : String
  total_stores : Json := .num 0
  confidence : ℚ
  source_urls : List String := []
  investigation_mode : String
  notes : String := ""
  needs_verification : Bool := false
  raw_response : String := ""

/-- `StoreInvestigationResult.create_uncertain` from `investigators/base.py`. -/
def StoreInvestigationResult.create_uncertain (company_name investigation_mode : String)
    (reason : String := "") (source_urls : List String := [])
    (raw_response : String := "") : StoreInvestigationResult :=
  { company_name := company_name
    total_stores := .num 0
    confidence := mkRat 3 10
    source_urls := source_urls
    investigation_mode := investigation_mode
    notes := if reason ≠ "" then "要確認: " ++ reason else "要確認"
    needs_verification := true
    raw_response := raw_response }

/-- `StoreInvestigationResult.create_error` from `investigators/base.py`. -/
def StoreInvestigationResult.create_error (company_name investigation_mode : String)
    (error_message : String := "") : StoreInvestigationResult :=
  { company_name := company_name
    total_stores := .num 0
    confidence := 0
    source_urls := []
    investigation_mode := investigation_mode
    notes := "エラー: " ++ error_message
    needs_verification := true }

/-! ## `investigators/player_validator.py`

`PlayerValidator.CONFIDENCE_THRESHOLD = 0.6`.  The URL status check and the
LLM call are the abstract capabilities of the host environment; they enter
as oracles (`urlStat`, keyed by the URL, and `llm`, keyed by the player
under investigation — the concrete Japanese prompt string is transport
detail).  An `.error` outcome of `llm` or of `parse_response` is a raised
exception, caught by `validate_player`. -/

structure UrlStatus where
  status_code : Nat
  final_url : String := ""
  is_redirect : Bool := false
deriving DecidableEq, Repr

structure PlayerData where
  player_name : String
  official_url : String := ""
  company_name : String := ""
deriving DecidableEq, Repr

/-- The `change_type_map` lookup in `PlayerValidator._parse_response`
(string keys; unmapped strings fall back to `NO_CHANGE`). -/
def changeTypeOfStr (s : String) : ChangeType :=
  if s = "none" then .no_change
  else if s = "withdrawal" then .withdrawal
  else if s = "merger" then .merger
  else if s = "company_rename" then .company_rename
  else if s = "service_rename" then .service_rename
  else if s = "url_change" then .url_change
  else .no_change

/-- `change_type_map.get(x, NO_CHANGE)` on a JSON value: non-string hashable
values miss the map (`NO_CHANGE`); an unhashable list/dict raises
`TypeError`. -/
def changeTypeOfJson : Json → Except String ChangeType
  | .str s => .ok (changeTypeOfStr s)
  | .arr _ => .error "TypeError: unhashable type"
  | .obj _ => .error "TypeError: unhashable type"
  | _ => .ok .no_change

/-- `PlayerValidator._parse_response(response, ...)` from
`investigators/player_validator.py`.  `extract_json` failure or falsy /
non-dict data yields `create_uncertain`; otherwise the change type, the raw
`float(...)` confidence (which can raise, hence `Except`), `is_active`
truthiness, the status cascade, and
`needs_manual_review = (status == UNCERTAIN or confidence < 0.6)` follow the
source.  The threshold comparison is IEEE `<` on the unclamped float. -/
def parse_response (loads : String → Option Json) (response : String)
    (player_name original_url : String) (_url_status : Option UrlStatus) :
    Except String ValidationResult :=
  match extract_json loads response with
  | none => .ok (ValidationResult.create_uncertain player_name original_url
      "LLMからの応答を解析できませんでした")
  | some data =>
    if !pyTruthy data || !(match data with | .obj _ => true | _ => false) then
      .ok (ValidationResult.create_uncertain player_name original_url
        "LLMからの応答を解析できませんでした")
    else
      match changeTypeOfJson (objGetD data "change_type" (.str "none")) with
      | .error e => .error e
      | .ok changeType0 =>
        match pyFloatOfJson (objGetD data "confidence" (.num (mkRat 1 2))) with
        | .error e => .error e
        | .ok confidence =>
          let alertLevel0 := determine_alert_level changeType0
          let isActive := pyTruthy (objGetD data "is_active" (.bool true))
          let sac : ValidationStatus × AlertLevel × ChangeType :=
            if ¬isActive then (.confirmed, .critical, .withdrawal)
            else if confidence.ltF (.finite (mkRat 3 5)) then
              (.uncertain, alertLevel0, changeType0)
            else if changeType0 = .no_change then (.unchanged, alertLevel0, changeType0)
            else (.confirmed, alertLevel0, changeType0)
          .ok { player_name_original := player_name
                status := sac.1
                alert_level := sac.2.1
                change_type := sac.2.2
                url_original := original_url
                confidence := confidence
                needs_manual_review :=
                  (sac.1 = ValidationStatus.uncertain) ∨
                    confidence.ltF (.finite (mkRat 3 5))
                raw_response := response }

/-- `PlayerValidator.validate_player` from
`investigators/player_validator.py`: check the URL when one is given, call
the LLM, parse; any raised exception becomes
`ValidationResult.create_error`. -/
def validate_player (urlStat : String → UrlStatus)
    (llm : PlayerData → Except String String) (loads : String → Option Json)
    (p : PlayerData) : ValidationResult :=
  let urlStatus : Option UrlStatus :=
    if p.official_url ≠ "" then some (urlStat p.official_url) else none
  match llm p with
  | .error e => ValidationResult.create_error p.player_name p.official_url e
  | .ok response =>
    match parse_response loads response p.player_name p.official_url urlStatus with
    | .error e => ValidationResult.create_error p.player_name p.official_url e
    | .ok r => r

/-- `PlayerValidator.validate_batch`: one semaphore-gated task per player,
collected by `asyncio.gather` in submission order — the per-index list of
single-player results. -/
def validate_batch (urlStat : String → UrlStatus)
    (llm : PlayerData → Except String String) (loads : String → Option Json)
    (players : List PlayerData) : List ValidationResult :=
  players.map (validate_player urlStat llm loads)

/-! ## `investigators/store_investigator.py`

`StoreInvestigator.CONFIDENCE_THRESHOLD = 0.7`.  `_parse_ai_response` does
its own JSON extraction: the fenced `json` block if present, else the greedy
`\{[\s\S]*\}` span, else `create_uncertain`; a parse failure of the chosen
span is also `create_uncertain` (no second attempt).  `data.get(...)` on a
non-dict parse result raises `AttributeError` (the `.error` branch), caught
one level up in `_investigate_ai`. -/

/-- The `total_stores` normalization: a string is reduced to its first digit
run (`re.search(r"\d+", ...)`, 0 when absent); every other JSON value is
forwarded unchanged. -/
def normalizeTotalStores : Json → Json
  | .str s =>
    let run := (s.toList.dropWhile (fun c => ¬c.isDigit)).takeWhile Char.isDigit
    .num (if run.isEmpty then 0 else (digitsToNat run : ℚ))
  | j => j

/-- The `sources` normalization of `_parse_ai_response`: a non-list becomes
a singleton when truthy (else empty), then only strings starting with
`http` survive. -/
def normalizeSources (j : Json) : List String :=
  let sourcesList : List Json :=
    match j with
    | .arr xs => xs
    | other => if pyTruthy other then [other] else []
  sourcesList.filterMap (fun v =>
    match v with
    | .str s => if strStartsWith s "http" then some s else none
    | _ => none)

/-- `StoreInvestigator._parse_ai_response(company_name, response)`. -/
def parse_ai_response (loads : String → Option Json)
    (company_name response : String) : Except String StoreInvestigationResult :=
  let jsonStr : Option String :=
    match fencedJsonContent response with
    | some c => some c
    | none => greedySpan '{' '}' response
  match jsonStr with
  | none => .ok (StoreInvestigationResult.create_uncertain company_name "ai"
      "JSONを抽出できませんでした" [] response)
  | some js =>
    match loads js with
    | none => .ok (StoreInvestigationResult.create_uncertain company_name "ai"
        "JSON解析エラー" [] response)
    | some data =>
      match data with
      | .obj _ =>
        let totalStores := normalizeTotalStores (objGetD data "total_stores" (.num 0))
        let storeListUrl := objGetD data "store_list_url" .null
        let confidence := safe_float (pyValOfJson (objGetD data "confidence" .null)) (mkRat 1 2)
        let sources0 := normalizeSources (objGetD data "sources" (.arr []))
        let sources :=
          match storeListUrl with
          | .str u =>
            if u ≠ "" ∧ strStartsWith u "http" ∧ u ∉ sources0 then u :: sources0 else sources0
          | _ => sources0
        let notes : String := match objGetD data "notes" (.str "") with
          | .str s => s
          | _ => ""
        .ok { company_name := company_name
              total_stores := totalStores
              confidence := confidence
              source_urls := sources
              investigation_mode := "ai"
              notes := notes
              needs_verification :=
                decide (confidence < mkRat 7 10) || pyEqZero totalStores
              raw_response := response }
      | _ => .error "AttributeError"

/-- Request shape of `StoreInvestigator.investigate_batch`
(`{"company_name", "official_url", "industry"}`). -/
structure CompanyReq where
  company_name : String
  official_url : String := ""
  industry : String := ""

/-- `StoreInvestigator.investigate_batch`: one semaphore-gated task per
company applying `self.investigate` (abstracted to the oracle `inv`, since
the batch runner treats it as a black box), collected by `asyncio.gather`
in submission order. -/
def investigate_batch (inv : CompanyReq → StoreInvestigationResult)
    (companies : List CompanyReq) : List StoreInvestigationResult :=
  companies.map inv

/-! ## The `asyncio.gather` completion model

Within one batch the per-entity tasks complete in an arbitrary order
(`schedule`, a permutation of the task indices); `asyncio.gather` stores
each completion at its task's index and returns the list in submission
order.  `gatherByIndex` reconstructs the returned list from completion
events. -/

/-- Reassemble gathered results in submission order from `(index, result)`
completion events. -/
def gatherByIndex {α : Type} (n : Nat) (completions : List (Nat × α)) : List α :=
  (List.range n).filterMap (fun i =>
    (completions.find? (fun c => c.1 = i)).map (fun c => c.2))

/-- A batch run under an explicit completion schedule: task `i` (for each
`i` in the schedule) completes with `f entities[i]`, and the gathered output
is reassembled by index. -/
def batchWithSchedule {α β : Type} (f : α → β) (entities : List α)
    (schedule : List Nat) : List β :=
  gatherByIndex entities.length
    (schedule.filterMap (fun i => (entities.get? i).map (fun e => (i, f e))))

/-! ## `investigators/newcomer_detector.py`

`NewcomerCandidate` and the post-LLM phase of `NewcomerDetector.detect`:
the URL existence check (`_verify_url`, returning a status code and an
optional transport-error tag) runs over every candidate with a non-empty
`official_url`, then confidences of unverified URL-bearing candidates are
halved.  The check is the abstract page-fetch capability and enters as the
oracle `check`. -/

structure NewcomerCandidate where
  player_name : String
  official_url : String := ""
  company_name : String := ""
  entry_date_approx : String := ""
  confidence : PyFloat := .finite (mkRat 1 2)
  source_urls : List String := []
  reason : String := ""
  verification_status : String := "unverified"
  url_verified : Bool := false
deriving DecidableEq, Repr

/-- Result dict of `NewcomerDetector._verify_url`: the HTTP status code
(0 on failure) and the `error` tag present exactly when the request raised
(timeout / SSL / connection / request error). -/
structure UrlCheck where
  status_code : Nat
  error : Option String := none
deriving DecidableEq, Repr

/-- Step 2 of `NewcomerDetector.detect` for one candidate: a success status
code marks the candidate `verified`; otherwise a transport error marks it
`url_error`; otherwise (e.g. a plain 404) the candidate is left as built;
a candidate without a URL is marked `unverified`. -/
def verifyStep (check : String → UrlCheck) (c : NewcomerCandidate) : NewcomerCandidate :=
  if c.official_url ≠ "" then
    let r := check c.official_url
    if r.status_code ∈ [200, 301, 302, 303, 307, 308] then
      { c with url_verified := true, verification_status := "verified" }
    else if r.error.isSome then
      { c with url_verified := false, verification_status := "url_error" }
    else c
  else { c with verification_status := "unverified" }

/-- Step 3 of `NewcomerDetector.detect` for one candidate:
`confidence *= 0.5` when the candidate has a URL that did not verify. -/
def confStep (c : NewcomerCandidate) : NewcomerCandidate :=
  if ¬c.url_verified ∧ c.official_url ≠ "" then
    { c with confidence := c.confidence.halve }
  else c

/-- The post-LLM phase of `NewcomerDetector.detect`: the verification loop
over all candidates, then the confidence-adjustment loop. -/
def detectPost (check : String → UrlCheck) (candidates : List NewcomerCandidate) :
    List NewcomerCandidate :=
  (candidates.map (verifyStep check)).map confStep

/-! ## `core/sanitizer.py` : `sanitize_input`

`StoreInvestigator._sanitize_input` delegates to this shared sanitizer,
which `StoreInvestigator.investigate` applies to its inputs before the
empty-name guard.  The dangerous-pattern removal is
`re.sub(pattern, "[REMOVED]", text, re.IGNORECASE)` where every pattern in
`DANGEROUS_PATTERNS` has the shape `head` `.*` `tail` (two of them with a
trailing `s?`): `.` does not cross newlines, `re.sub` rewrites
non-overlapping leftmost matches and continues after each match, and the
greedy `.*` extends to the LAST occurrence of the tail within the line,
where the optional `s` is then also taken greedily.  (Behaviour checked
against CPython on each pattern shape.) -/

/-- Case-insensitive prefix test (ASCII lower-casing, as `re.IGNORECASE`
behaves on the patterns involved). -/
def icIsPrefixOf : List Char → List Char → Bool
  | [], _ => true
  | _ :: _, [] => false
  | p :: ps, c :: cs => p.toLower = c.toLower ∧ icIsPrefixOf ps cs

/-- End offsets, within the rest of the line, of every position where
`tail` (plus a greedy optional `s`) matches; the regex engine keeps the
last one. -/
def tailMatchEnds (tail : List Char) (optS : Bool) (line : List Char) : List Nat :=
  (List.range (line.length + 1)).filterMap (fun j =>
    if icIsPrefixOf tail (line.drop j) then
      some (j + tail.length +
        (if optS ∧ ((line.drop (j + tail.length)).headD ' ').toLower = 's' then 1 else 0))
    else none)

/-- One `re.sub` pass for a `head.*tail(s?)` pattern: scan left to right;
at a position where `head` matches, the match extends to the last
`tail(s?)` on the same line and is replaced by `[REMOVED]`, continuing
after it; without a closing `tail` the scan moves one character on. -/
def regexSubGo (head tail : List Char) (optS : Bool) : Nat → List Char → List Char
  | 0, cs => cs
  | fuel + 1, cs =>
    match cs with
    | [] => []
    | c :: rest =>
      if icIsPrefixOf head (c :: rest) then
        let afterHead := (c :: rest).drop head.length
        let line := afterHead.takeWhile (fun ch => ch ≠ '\n')
        match (tailMatchEnds tail optS line).getLast? with
        | some e => "[REMOVED]".toList ++ regexSubGo head tail optS fuel (afterHead.drop e)
        | none => c :: regexSubGo head tail optS fuel rest
      else c :: regexSubGo head tail optS fuel rest

/-- `re.sub(head ++ ".*" ++ tail ++ (s?), "[REMOVED]", ...)`, fuelled by
the input length (each step consumes at least one character). -/
def regexSub (head tail : String) (optS : Bool) (cs : List Char) : List Char :=
  regexSubGo head.toList tail.toList optS (cs.length + 1) cs

/-- `DANGEROUS_PATTERNS` from `core/sanitizer.py` as
(head, tail, optional-s) triples. -/
def dangerousPatterns : List (String × String × Bool) :=
  [("ignore", "instruction", true),
   ("forget", "instruction", true),
   ("system", "prompt", false),
   ("<|", "|>", false),
   ("\x7b\x7b", "\x7d\x7d", false),
   ("```", "system", false)]

/-- `.replace('\r\n', '\n')` (left-to-right pairwise scan). -/
def crlfToLf : List Char → List Char
  | '\r' :: '\n' :: rest => '\n' :: crlfToLf rest
  | c :: rest => c :: crlfToLf rest
  | [] => []

/-- `re.sub(r"\n\x7b3,\x7d", "\n\n", ...)`: newline runs of three or
more collapse to two (`run` counts pending newlines). -/
def collapseLfGo (run : Nat) : List Char → List Char
  | [] => if run ≥ 3 then ['\n', '\n'] else List.replicate run '\n'
  | '\n' :: rest => collapseLfGo (run + 1) rest
  | c :: rest =>
    (if run ≥ 3 then ['\n', '\n'] else List.replicate run '\n') ++ c :: collapseLfGo 0 rest

/-- `re.sub(r'[ ]\x7b2,\x7d', ' ', ...)`: space runs of two or more
collapse to one. -/
def collapseSpGo (run : Nat) : List Char → List Char
  | [] => if run ≥ 2 then [' '] else List.replicate run ' '
  | ' ' :: rest => collapseSpGo (run + 1) rest
  | c :: rest =>
    (if run ≥ 2 then [' '] else List.replicate run ' ') ++ c :: collapseSpGo 0 rest

/-- `.replace('```', '`‵`')` (left-to-right, non-overlapping). -/
def fenceBreak : List Char → List Char
  | '`' :: '`' :: '`' :: rest => '`' :: '‵' :: '`' :: fenceBreak rest
  | c :: rest => c :: fenceBreak rest
  | [] => []

/-- `sanitize_input(text, max_length=500)` from `core/sanitizer.py`:
empty input yields `""`; otherwise strip, remove the dangerous patterns,
normalize `\r\n`/`\r`/`\t`, cap newline and space runs, break prompt
fences and replace `【`/`】`, truncate to `max_length`, and strip again. -/
def sanitize_input (text : String) (max_length : Nat := 500) : String :=
  if text = "" then ""
  else
    let s1 := (strTrim text).toList
    let s2 := dangerousPatterns.foldl (fun acc p => regexSub p.1 p.2.1 p.2.2 acc) s1
    let s3 := (crlfToLf s2).map (fun c => if c = '\r' ∨ c = '\t' then ' ' else c)
    let s4 := collapseLfGo 0 s3
    let s5 := collapseSpGo 0 s4
    let s6 := (fenceBreak s5).map
      (fun c => if c = '【' then '[' else if c = '】' then ']' else c)
    let s7 := if s6.length > max_length then s6.take max_length else s6
    strTrim (String.mk s7)

/-! ## `investigators/store_investigator.py` : `investigate` (AI mode)

`investigate` sanitizes its inputs, rejects an empty company name with an
error result, and dispatches on the mode; `investigate_batch` calls it with
the default AI mode.  In AI mode `_investigate_ai` wraps the LLM call and
the response parse in `try/except`, converting any raised exception to
`StoreInvestigationResult.create_error(company_name, "ai", str(e))` with
`needs_verification=True`; the outer `try/except` of `investigate` around
the dispatch produces the identical error result for the same mode, so the
two catch sites are observationally one branch.  As elsewhere, the LLM
transport is the oracle `llm`, keyed by the sanitized request. -/

/-- A request with `investigate`'s input sanitization applied to each
field. -/
def sanReq (c : CompanyReq) : CompanyReq :=
  { company_name := sanitize_input c.company_name
    official_url := sanitize_input c.official_url
    industry := sanitize_input c.industry }

/-- `StoreInvestigator._investigate_ai`: call the LLM and parse the
response; a raised exception (from the call, or the `AttributeError` of
`_parse_ai_response` on a non-dict parse) becomes `create_error`. -/
def investigate_ai (llm : CompanyReq → Except String String)
    (loads : String → Option Json) (c : CompanyReq) : StoreInvestigationResult :=
  match llm c with
  | .error e => StoreInvestigationResult.create_error c.company_name "ai" e
  | .ok response =>
    match parse_ai_response loads c.company_name response with
    | .error e => StoreInvestigationResult.create_error c.company_name "ai" e
    | .ok r => r

/-- `StoreInvestigator.investigate` in the default AI mode. -/
def investigate (llm : CompanyReq → Except String String)
    (loads : String → Option Json) (c : CompanyReq) : StoreInvestigationResult :=
  let s := sanReq c
  if s.company_name = "" then
    StoreInvestigationResult.create_error "" "ai" "企業名が指定されていません"
  else investigate_ai llm loads s

/-! ## Claim theorems -/

/-- C8: the claim asserts `a ≤ safe_float(x, min_val=a, max_val=b) ≤ b` for
EVERY pair of bounds.  It fails: on a conversion failure the DEFAULT is
returned unclamped, so with `min_val = 3/5 > default = 1/2` the result
`1/2` lies below the lower bound. -/
theorem safe_float_bounds_cex :
    safe_float PyVal.vNone (1/2) (3/5) 1 = 1/2 ∧ ¬((3/5 : ℚ) ≤ 1/2) := by
  exact ⟨rfl, by norm_num⟩

/-- C8 (amended): `safe_float` never raises (it is a total function), and
whenever the default itself lies within `[min_val, max_val]` — in
particular for the default arguments `(0.5, 0.0, 1.0)` used at every call
site — the result lies in `[min_val, max_val]` for every input value,
including `None`, NaN, ±Infinity and non-numeric strings. -/
theorem safe_float_in_bounds (v : PyVal) (d a b : ℚ) (h1 : a ≤ d) (h2 : d ≤ b) :
    a ≤ safe_float v d a b ∧ safe_float v d a b ≤ b := by
  have hab : a ≤ b := le_trans h1 h2
  unfold safe_float
  split
  · exact ⟨h1, h2⟩
  · split
    all_goals first
      | exact ⟨h1, h2⟩
      | exact ⟨le_max_left _ _, max_le hab (min_le_left _ _)⟩

/-- C8 witness: the amended theorem applied to the non-numeric string
`"高い"` with the default bounds. -/
theorem safe_float_in_bounds_witness :
    ((0 : ℚ) ≤ 1/2 ∧ (1/2 : ℚ) ≤ 1) ∧
    (0 ≤ safe_float (PyVal.vStr "高い") (1/2) 0 1 ∧
      safe_float (PyVal.vStr "高い") (1/2) 0 1 ≤ 1) :=
  ⟨⟨by norm_num, by norm_num⟩,
   safe_float_in_bounds (PyVal.vStr "高い") (1/2) 0 1 (by norm_num) (by norm_num)⟩

/-- Candidate used by the C5 counterexample and witness: LLM-proposed with
confidence 0.8 and an official URL (the parser builds candidates
`unverified` with `url_verified=False`). -/
def c5Candidate : NewcomerCandidate :=
  { player_name := "NewPay"
    official_url := "https://newpay.example"
    confidence := .finite (4/5) }

/-- C5: the claim asserts `verification_status = "url_error"` for every
candidate whose live URL existence check fails.  A check that comes back
with a non-success HTTP status (here 404 — the URL does not exist) but no
transport error leaves the status `"unverified"`: only raised request errors
produce `"url_error"`.  The confidence IS halved (0.8 → 0.4). -/
theorem newcomer_url_error_cex :
    (detectPost (fun _ => { status_code := 404, error := none }) [c5Candidate]).map
        (fun c => c.verification_status) = ["unverified"] ∧
    (detectPost (fun _ => { status_code := 404, error := none }) [c5Candidate]).map
        (fun c => c.confidence) = [.finite (2/5)] := by
  constructor
  · rfl
  · simp only [detectPost, verifyStep, confStep, PyFloat.halve, c5Candidate, List.map_map,
      List.map_cons, List.map_nil, Function.comp]
    norm_num
    rw [if_neg (by decide : ¬("https://newpay.example" = ""))]

/-- C5 (amended): for every candidate with a non-empty `official_url` whose
URL check does not return a success status (one of 200/301/302/303/307/308),
the confidence is exactly halved; the `verification_status` becomes
`"url_error"` exactly when the check reported a transport error, and is left
as built (i.e. `"unverified"` for parser-built candidates) when the check
merely returned a non-success status.  `detectPost` is the per-candidate
composition of the two loops of `NewcomerDetector.detect`. -/
theorem newcomer_url_check_halves (check : String → UrlCheck)
    (cs : List NewcomerCandidate) (c : NewcomerCandidate)
    (hmem : c ∈ cs) (hurl : c.official_url ≠ "")
    (hv : c.url_verified = false)
    (hstatus : (check c.official_url).status_code ∉ [200, 301, 302, 303, 307, 308]) :
    confStep (verifyStep check c) ∈ detectPost check cs ∧
    (confStep (verifyStep check c)).confidence = c.confidence.halve ∧
    ((check c.official_url).error.isSome = true →
      (confStep (verifyStep check c)).verification_status = "url_error") ∧
    ((check c.official_url).error = none →
      (confStep (verifyStep check c)).verification_status = c.verification_status) := by
  refine ⟨?_, ?_, ?_, ?_⟩
  · unfold detectPost
    rw [List.map_map]
    exact List.mem_map_of_mem _ hmem
  · unfold verifyStep confStep
    rw [if_pos hurl, if_neg hstatus]
    rcases herr : (check c.official_url).error with _ | e
    · simp only [Option.isSome_none, Bool.false_eq_true, if_false, if_neg]
      rw [if_pos ⟨by simp [hv], hurl⟩]
    · simp only [Option.isSome_some, if_true]
      rw [if_pos ⟨by simp, hurl⟩]
  · intro herr
    unfold verifyStep confStep
    rw [if_pos hurl, if_neg hstatus, if_pos herr]
    split <;> rfl
  · intro herr
    unfold verifyStep confStep
    rw [if_pos hurl, if_neg hstatus]
    simp only [herr, Option.isSome_none, Bool.false_eq_true, if_false]
    split <;> rfl

/-- C5 witness: the amended theorem applied to `c5Candidate` and a check
that times out: the candidate comes back `url_error` with confidence 0.4. -/
theorem newcomer_url_check_halves_witness :
    (c5Candidate ∈ [c5Candidate] ∧ c5Candidate.official_url ≠ "" ∧
      c5Candidate.url_verified = false) ∧
    (confStep (verifyStep (fun _ => { status_code := 0, error := some "timeout" }) c5Candidate)
        ∈ detectPost (fun _ => { status_code := 0, error := some "timeout" }) [c5Candidate] ∧
      (confStep (verifyStep (fun _ => { status_code := 0, error := some "timeout" })
          c5Candidate)).confidence = c5Candidate.confidence.halve ∧
      (confStep (verifyStep (fun _ => { status_code := 0, error := some "timeout" })
          c5Candidate)).verification_status = "url_error") := by
  have h := newcomer_url_check_halves (fun _ => { status_code := 0, error := some "timeout" })
    [c5Candidate] c5Candidate (by simp) (by decide) rfl (by decide)
  exact ⟨⟨by simp, by decide, rfl⟩, h.1, h.2.1, h.2.2.1 rfl⟩

/-- The LLM response text used to exhibit the unclamped confidence of
`PlayerValidator._parse_response` (a JSON object whose `confidence` is 5.0;
braces written as escapes). -/
def c9Response : String :=
  "\x7b\"confidence\": 5.0, \"is_active\": true, \"change_type\": \"none\"\x7d"

/-- C9: the spec (and the dataclass documentation `confidence: 信頼度
(0.0-1.0)` in `investigators/base.py`) requires every parsed result to
carry a confidence in `[0,1]`, out-of-range numbers being clamped.
`StoreInvestigator._parse_ai_response` does clamp (via `safe_float`), but
`PlayerValidator._parse_response` stores the raw `float(...)` conversion:
an LLM reply with `"confidence": 5.0` produces a `ValidationResult` with
confidence 5, outside `[0,1]` (and `NewcomerDetector._parse_response` has
the same raw conversion).  The code contradicts its own field
documentation, so this is recorded as a code bug, evaluated here at the
failing input. -/
theorem validator_confidence_unclamped :
    (parse_response jsonParse c9Response "PlayerX" "" none).toOption.map
        (fun r => r.confidence) = some (.finite 5) ∧
    ¬((5 : ℚ) ≤ 1) ∧
    ((parse_ai_response jsonParse "CompanyX" c9Response).toOption.map
        (fun r => r.confidence)) = some 1 := by
  refine ⟨rfl, by norm_num, ?_⟩
  rfl

/-- Fenced response used by the C6 counterexample: a code block labelled
`json` containing the bare scalar `3`. -/
def c6FencedScalar : String := "```json\n3\n```"

/-- C6: the claim asserts `extract_json` always returns a dict, a list, or
`None`.  The fenced-block path returns whatever JSON value the block
parses to: on a fenced scalar `3` the function returns the number 3
(`json.loads("3") == 3`), which is neither a dict nor a list. -/
theorem extract_json_scalar_cex :
    extract_json jsonParse c6FencedScalar = some (Json.num 3) ∧
    isDictOrList (Json.num 3) = false := by
  constructor
  · rfl
  · rfl

/-- C6 (amended): `extract_json` is total (never raises — it returns an
`Option`) and proceeds in the claimed order: (i) a fenced `json` block that
parses is returned directly (any JSON value, not only dicts/lists); (ii)
with no fenced block present and `[` occurring strictly before any `{`, the
greedy array span (first `[` to last `]`) is parsed first and the greedy
object span is the fallback; (iii) with no fenced block and `{` first (or
no `[` at all, or identical order only when `[` is absent), the object span
is parsed first with the array span as fallback.  The bracket-phase
results, being spans from `[`...`]` or `{`...`}`, are the only ones the
claim's dict/list restriction actually covers. -/
theorem extract_json_attempt_order (loads : String → Option Json) (text : String) :
    (∀ content j, fencedJsonContent text = some content → loads content = some j →
      text ≠ "" → extract_json loads text = some j) ∧
    (∀ i, fencedJsonContent text = none → findCharIdx '[' text.toList = some i →
      (∀ k, findCharIdx '{' text.toList = some k → i < k) →
      extract_json loads text =
        (((greedySpan '[' ']' text).bind loads) <|> ((greedySpan '{' '}' text).bind loads))) ∧
    (∀ k, fencedJsonContent text = none → findCharIdx '{' text.toList = some k →
      (∀ i, findCharIdx '[' text.toList = some i → k ≤ i) →
      extract_json loads text =
        (((greedySpan '{' '}' text).bind loads) <|> ((greedySpan '[' ']' text).bind loads))) := by
  refine ⟨?_, ?_, ?_⟩
  · intro content j hf hl hne
    unfold extract_json
    simp only [if_neg hne, hf, hl]
  · intro i hf hbr hlt
    have hne : text ≠ "" := by
      intro h
      subst h
      simp [findCharIdx] at hbr
    unfold extract_json bracketPhase
    rw [if_neg hne, hf, hbr]
    rcases hbrace : findCharIdx '{' text.toList with _ | k
    · rfl
    · rw [if_pos]
      exact decide_eq_true (hlt k hbrace)
  · intro k hf hbrace hle
    have hne : text ≠ "" := by
      intro h
      subst h
      simp [findCharIdx] at hbrace
    unfold extract_json bracketPhase
    rw [if_neg hne, hf, hbrace]
    rcases hbr : findCharIdx '[' text.toList with _ | i
    · rfl
    · rw [if_neg]
      have := hle i hbr
      simp only [decide_eq_true_eq]
      omega

/-- C6 witness: the attempt-order theorem applied to prose-wrapped array
text, where the array span parses. -/
theorem extract_json_attempt_order_witness :
    (fencedJsonContent "answer: [1, 2] end" = none ∧
      findCharIdx '[' "answer: [1, 2] end".toList = some 8) ∧
    extract_json jsonParse "answer: [1, 2] end" =
      (((greedySpan '[' ']' "answer: [1, 2] end").bind jsonParse) <|>
        ((greedySpan '{' '}' "answer: [1, 2] end").bind jsonParse)) ∧
    extract_json jsonParse "answer: [1, 2] end" = some (Json.arr [.num 1, .num 2]) := by
  refine ⟨⟨rfl, rfl⟩, ?_, rfl⟩
  exact (extract_json_attempt_order jsonParse "answer: [1, 2] end").2.1 8 rfl rfl
    (by intro k hk; simp [findCharIdx] at hk)

/-- Decomposition of the colon split: a successful split reassembles the
input around the first colon. -/
theorem splitAtColon_eq (cs : List Char) (pre post : List Char)
    (h : splitAtColon cs = some (pre, post)) : cs = pre ++ ':' :: post := by
  induction cs generalizing pre post with
  | nil => simp [splitAtColon] at h
  | cons c cs ih =>
    unfold splitAtColon at h
    by_cases hc : c = ':'
    · rw [if_pos hc] at h
      injection h with h
      obtain ⟨h1, h2⟩ := Prod.mk.injEq .. |>.mp h
      subst hc
      subst h1
      subst h2
      simp
    · rw [if_neg hc] at h
      cases h2 : splitAtColon cs with
      | none => rw [h2] at h; simp at h
      | some p =>
        obtain ⟨p1, p2⟩ := p
        rw [h2] at h
        simp only [Option.map_some', Option.some.injEq] at h
        obtain ⟨h1, h3⟩ := Prod.mk.injEq .. |>.mp h
        subst h1
        subst h3
        simpa using ih p1 p2 h2

/-- A non-empty parsed scheme means the cleaned URL, lower-cased, starts
with that scheme followed by a colon. -/
theorem urlparse_scheme_colon (s sch : String) (hsch : (urlparseSN s).1 = sch)
    (hne : sch ≠ "") :
    strStartsWith (strLower s) (sch ++ ":") = true := by
  unfold urlparseSN at hsch
  cases hsplit : urlSchemeSplit s.toList with
  | none => rw [hsplit] at hsch; exact absurd hsch.symm hne
  | some pr =>
    obtain ⟨schL, restL⟩ := pr
    rw [hsplit] at hsch
    dsimp only at hsch
    unfold urlSchemeSplit at hsplit
    cases hcolon : splitAtColon s.toList with
    | none => rw [hcolon] at hsplit; simp at hsplit
    | some pp =>
      obtain ⟨pre, post⟩ := pp
      rw [hcolon] at hsplit
      dsimp only at hsplit
      by_cases hcond : schemeShape pre
      · rw [if_pos hcond] at hsplit
        injection hsplit with hsplit
        obtain ⟨hq1, hq2⟩ := Prod.mk.injEq .. |>.mp hsplit
        have hdec : s.toList = pre ++ ':' :: post :=
          splitAtColon_eq s.toList pre post (by rw [hcolon])
        have hLower : (strLower s).data =
            pre.map Char.toLower ++ ':' :: post.map Char.toLower := by
          show (s.toList.map Char.toLower) = _
          rw [hdec]
          simp
        have hsch2 : (sch ++ ":").data = pre.map Char.toLower ++ [':'] := by
          rw [← hsch, ← hq1]
          show (String.mk (pre.map Char.toLower)).data ++ ":".data = _
          rfl
        show ((sch ++ ":").data).isPrefixOf ((strLower s).data) = true
        rw [hLower, hsch2, List.isPrefixOf_iff_prefix]
        rw [List.append_cons (pre.map Char.toLower) ':' (post.map Char.toLower)]
        exact List.prefix_append _ _
      · rw [if_neg hcond] at hsplit
        simp at hsplit

/-- Lower-casing distributes over append (on the character-list model). -/
theorem strLower_append (a b : String) :
    strLower (a ++ b) = strLower a ++ strLower b := by
  unfold strLower
  apply String.ext
  show ((a ++ b).data.map Char.toLower) = _
  rw [String.data_append]
  show _ = (a.data.map Char.toLower) ++ (b.data.map Char.toLower)
  rw [List.map_append]

/-- A string prefixed with `https://` starts, lower-cased, with `https:`. -/
theorem https_prefixed_starts (s : String) :
    strStartsWith (strLower ("https://" ++ s)) "https:" = true := by
  rw [strLower_append]
  unfold strStartsWith
  rw [List.isPrefixOf_iff_prefix]
  have h1 : (strLower "https://").data = "https:".data ++ ['/', '/'] := by decide
  show "https:".toList <+: (strLower "https://" ++ strLower s).data
  rw [String.data_append, h1, List.append_assoc]
  exact List.prefix_append _ _

/-- Tail of `sanitize_url` shared by its returning branches: once a
candidate string reaches the blocked-scheme and length checks, the result
is `""` or the candidate itself, and the candidate carries its scheme
prefix and is free of blocked-scheme substrings. -/
theorem sanitizeTail (url s1 : String)
    (hopen : sanitize_url url =
      (if strContains (strLower s1) "javascript:" ∨ strContains (strLower s1) "data:" ∨
          strContains (strLower s1) "vbscript:" then ""
       else if s1.length > 2000 then "" else s1))
    (hpre : strStartsWith (strLower s1) "http:" = true ∨
      strStartsWith (strLower s1) "https:" = true) :
    (sanitize_url url = "" ∨
      ((sanitize_url url).length ≤ 2000 ∧
        (strStartsWith (strLower (sanitize_url url)) "http:" = true ∨
          strStartsWith (strLower (sanitize_url url)) "https:" = true))) ∧
    (sanitize_url url ≠ "" →
      strContains (strLower (sanitize_url url)) "javascript:" = false ∧
      strContains (strLower (sanitize_url url)) "data:" = false ∧
      strContains (strLower (sanitize_url url)) "vbscript:" = false) := by
  by_cases hjs : strContains (strLower s1) "javascript:" = true ∨
      strContains (strLower s1) "data:" = true ∨ strContains (strLower s1) "vbscript:" = true
  · rw [if_pos hjs] at hopen
    exact ⟨Or.inl hopen, fun h => absurd hopen h⟩
  · rw [if_neg hjs] at hopen
    by_cases hlen : s1.length > 2000
    · rw [if_pos hlen] at hopen
      exact ⟨Or.inl hopen, fun h => absurd hopen h⟩
    · rw [if_neg hlen] at hopen
      simp only [not_or, Bool.not_eq_true] at hjs
      constructor
      · right
        rw [hopen]
        exact ⟨by omega, hpre⟩
      · intro _
        rw [hopen]
        exact hjs

/-- C7: the claim asserts every non-empty result starts with `http://` or
`https://`.  An input with an `http` scheme but no `//` authority is
returned unchanged: `sanitize_url("http:example") == "http:example"`, which
starts with neither. -/
theorem sanitize_url_scheme_cex :
    sanitize_url "http:example" = "http:example" ∧
    strStartsWith "http:example" "http://" = false ∧
    strStartsWith "http:example" "https://" = false := by
  exact ⟨rfl, rfl, rfl⟩

/-- C7 (amended): `sanitize_url` never raises (it is total) and returns
either `""` or a string of at most 2000 characters that starts,
case-insensitively, with the SCHEME `http:` or `https:` (with `://` in all
paths except an authority-less input such as `"http:example"`, which is
passed through as-is); any input whose parsed scheme is not http/https/empty
— `javascript:`, `data:`, `vbscript:` in particular — yields `""`; no
non-empty result contains a `javascript:`/`data:`/`vbscript:` substring;
and a scheme-less, authority-less input whose first path segment is dotted
with a block-listed file extension yields `""`. -/
theorem sanitize_url_contract (url : String) :
    (sanitize_url url = "" ∨
      ((sanitize_url url).length ≤ 2000 ∧
        (strStartsWith (strLower (sanitize_url url)) "http:" = true ∨
          strStartsWith (strLower (sanitize_url url)) "https:" = true))) ∧
    (¬((urlparseSN (stripClean url)).1 = "http" ∨ (urlparseSN (stripClean url)).1 = "https" ∨
        (urlparseSN (stripClean url)).1 = "") → sanitize_url url = "") ∧
    (sanitize_url url ≠ "" →
      strContains (strLower (sanitize_url url)) "javascript:" = false ∧
      strContains (strLower (sanitize_url url)) "data:" = false ∧
      strContains (strLower (sanitize_url url)) "vbscript:" = false) ∧
    ((urlparseSN (stripClean url)).1 = "" → (urlparseSN (stripClean url)).2 = "" →
      strContains ((splitOnChar '/' (stripClean url)).headD "") "." = true →
      strLower ((splitOnChar '.' ((splitOnChar '/' (stripClean url)).headD "")).getLastD "")
        ∈ fileExtensionBlocklist →
      sanitize_url url = "") := by
  by_cases hurl : url = ""
  · subst hurl
    exact ⟨Or.inl rfl, fun _ => rfl, fun h => absurd rfl h, fun _ _ _ _ => rfl⟩
  · have hopen : sanitize_url url =
        (if ¬((urlparseSN (stripClean url)).1 = "http" ∨
            (urlparseSN (stripClean url)).1 = "https" ∨
            (urlparseSN (stripClean url)).1 = "") then ""
         else
          match
            (if (urlparseSN (stripClean url)).1 = "" ∧ (urlparseSN (stripClean url)).2 ≠ "" then
              some ("https://" ++ stripClean url)
            else if (urlparseSN (stripClean url)).1 = "" ∧ (urlparseSN (stripClean url)).2 = "" then
              (if strContains ((splitOnChar '/' (stripClean url)).headD "") "." then
                (if strLower ((splitOnChar '.'
                      ((splitOnChar '/' (stripClean url)).headD "")).getLastD "")
                    ∈ fileExtensionBlocklist then none
                 else some ("https://" ++ stripClean url))
               else none)
            else some (stripClean url)) with
          | none => ""
          | some s1 =>
            if strContains (strLower s1) "javascript:" ∨ strContains (strLower s1) "data:" ∨
                strContains (strLower s1) "vbscript:" then ""
            else if s1.length > 2000 then ""
            else s1) := by
      simp only [sanitize_url, if_neg hurl]
    by_cases hsch : ¬((urlparseSN (stripClean url)).1 = "http" ∨
        (urlparseSN (stripClean url)).1 = "https" ∨ (urlparseSN (stripClean url)).1 = "")
    · rw [if_pos hsch] at hopen
      exact ⟨Or.inl hopen, fun _ => hopen, fun h => absurd hopen h, fun _ _ _ _ => hopen⟩
    · rw [if_neg hsch] at hopen
      rw [not_not] at hsch
      by_cases hb1 : (urlparseSN (stripClean url)).1 = "" ∧ (urlparseSN (stripClean url)).2 ≠ ""
      · rw [if_pos hb1] at hopen
        dsimp only at hopen
        have htail := sanitizeTail url ("https://" ++ stripClean url) hopen
          (Or.inr (https_prefixed_starts (stripClean url)))
        exact ⟨htail.1, fun hna => absurd hsch hna, htail.2,
          fun _ hd2 _ _ => absurd hd2 hb1.2⟩
      · rw [if_neg hb1] at hopen
        by_cases hb2 : (urlparseSN (stripClean url)).1 = "" ∧ (urlparseSN (stripClean url)).2 = ""
        · rw [if_pos hb2] at hopen
          by_cases hdot : strContains ((splitOnChar '/' (stripClean url)).headD "") "." = true
          · rw [if_pos hdot] at hopen
            by_cases hext : strLower ((splitOnChar '.'
                ((splitOnChar '/' (stripClean url)).headD "")).getLastD "")
                ∈ fileExtensionBlocklist
            · rw [if_pos hext] at hopen
              dsimp only at hopen
              exact ⟨Or.inl hopen, fun _ => hopen, fun h => absurd hopen h,
                fun _ _ _ _ => hopen⟩
            · rw [if_neg hext] at hopen
              dsimp only at hopen
              have htail := sanitizeTail url ("https://" ++ stripClean url) hopen
                (Or.inr (https_prefixed_starts (stripClean url)))
              exact ⟨htail.1, fun hna => absurd hsch hna, htail.2,
                fun _ _ _ hd4 => absurd hd4 hext⟩
          · rw [if_neg hdot] at hopen
            dsimp only at hopen
            exact ⟨Or.inl hopen, fun _ => hopen, fun h => absurd hopen h,
              fun _ _ hd3 _ => absurd hd3 hdot⟩
        · rw [if_neg hb2] at hopen
          dsimp only at hopen
          have hne : (urlparseSN (stripClean url)).1 ≠ "" := by
            intro h0
            rcases Decidable.em ((urlparseSN (stripClean url)).2 = "") with h2 | h2
            · exact hb2 ⟨h0, h2⟩
            · exact hb1 ⟨h0, h2⟩
          have hhh : (urlparseSN (stripClean url)).1 = "http" ∨
              (urlparseSN (stripClean url)).1 = "https" := by
            rcases hsch with h | h | h
            · exact Or.inl h
            · exact Or.inr h
            · exact absurd h hne
          have hpre : strStartsWith (strLower (stripClean url)) "http:" = true ∨
              strStartsWith (strLower (stripClean url)) "https:" = true := by
            rcases hhh with h | h
            · exact Or.inl (urlparse_scheme_colon (stripClean url) "http" h (by decide))
            · exact Or.inr (urlparse_scheme_colon (stripClean url) "https" h (by decide))
          have htail := sanitizeTail url (stripClean url) hopen hpre
          exact ⟨htail.1, fun hna => absurd hsch hna, htail.2,
            fun hd1 _ _ _ => absurd hd1 hne⟩

/-- C7 witness: the contract applied to a `javascript:` input (rejected by
the scheme filter) and a bare blocked-extension filename (rejected by the
extension filter). -/
theorem sanitize_url_contract_witness :
    sanitize_url "javascript:alert(1)" = "" ∧ sanitize_url "test.txt" = "" := by
  have h1 := (sanitize_url_contract "javascript:alert(1)").2.1
  have h2 := (sanitize_url_contract "test.txt").2.2.2
  exact ⟨h1 (by decide), h2 (by decide) (by decide) (by decide) (by decide)⟩

/-- The two same-named, differently-addressed valid stores of the C2
counterexample. -/
def sDup1 : StoreInfo :=
  { company_name := "c", store_name := "北町支店", address := "東京都北区1-2-3" }

/-- Second store of the C2 counterexample (same name, different address). -/
def sDup2 : StoreInfo :=
  { company_name := "c", store_name := "北町支店", address := "大阪府大阪市4-5-6" }

/-- C2: the claim asserts EVERY deduplication pass keys on the composite
`(store_name, address)`.  The strategies' internal `_deduplicate` keys on
`store_name` alone (`key = store.store_name`): two valid stores with the
same name and different non-empty addresses collapse to the first one. -/
theorem deduplicate_name_only_cex :
    sDup1.is_valid = true ∧ sDup2.is_valid = true ∧
    sDup1.address ≠ sDup2.address ∧
    StaticHTMLStrategy.deduplicate [sDup1, sDup2] = [sDup1] := by
  refine ⟨rfl, rfl, by decide, rfl⟩

/-- C2 (amended): the FINAL aggregation in `MultiStrategyScraper.scrape`
does key on the composite `(store_name, address)` — two stores sharing a
name but differing in address are both kept — while each strategy's
internal `_deduplicate` keys on `store_name` alone, so the second of two
same-named records is dropped there even when the addresses differ. -/
theorem dedup_key_granularity :
    (∀ s1 s2 : StoreInfo, s1.store_name = s2.store_name → s1.address ≠ s2.address →
      dedupByNameAddress [s1, s2] = [s1, s2]) ∧
    (∀ s1 s2 : StoreInfo, storePassesFilters s1 = true → s1.store_name = s2.store_name →
      StaticHTMLStrategy.deduplicate [s1, s2] = [s1]) := by
  constructor
  · intro s1 s2 hname haddr
    have hkey : dedupKey s2 ≠ dedupKey s1 := by
      intro h
      apply haddr
      unfold dedupKey at h
      rw [hname] at h
      have hdata := congrArg String.data h
      rw [String.data_append, String.data_append, String.data_append,
        String.data_append] at hdata
      have := List.append_cancel_left hdata
      exact (String.ext this).symm
    unfold dedupByNameAddress dedupByKeyGo
    rw [if_neg (by simp)]
    unfold dedupByKeyGo
    rw [if_neg (by simpa using hkey)]
    rfl
  · intro s1 s2 hpass hname
    unfold StaticHTMLStrategy.deduplicate deduplicateGo
    rw [if_neg (by simp [hpass]), if_neg (by simp)]
    unfold deduplicateGo
    by_cases hp2 : storePassesFilters s2 = true
    · rw [if_neg (by simp [hp2]), if_pos (by simp [hname])]
      rfl
    · rw [if_pos (by simpa using hp2)]
      rfl

/-- C2 witness: the amended theorem applied to the two concrete stores. -/
theorem dedup_key_granularity_witness :
    (sDup1.store_name = sDup2.store_name ∧ sDup1.address ≠ sDup2.address ∧
      storePassesFilters sDup1 = true) ∧
    dedupByNameAddress [sDup1, sDup2] = [sDup1, sDup2] ∧
    StaticHTMLStrategy.deduplicate [sDup1, sDup2] = [sDup1] := by
  refine ⟨⟨rfl, by decide, rfl⟩, ?_, ?_⟩
  · exact dedup_key_granularity.1 sDup1 sDup2 rfl (by decide)
  · exact dedup_key_granularity.2 sDup1 sDup2 rfl rfl

/-- Store returned by the under-threshold first strategy in the C1
counterexample. -/
def sAlpha : StoreInfo :=
  { company_name := "c", store_name := "alpha", address := "addr-alpha-one" }

/-- First of the three stores returned by the succeeding second strategy. -/
def sBeta1 : StoreInfo :=
  { company_name := "c", store_name := "beta1", address := "addr-beta-one" }

/-- Second of the three stores returned by the succeeding second strategy. -/
def sBeta2 : StoreInfo :=
  { company_name := "c", store_name := "beta2", address := "addr-beta-two" }

/-- Third of the three stores returned by the succeeding second strategy. -/
def sBeta3 : StoreInfo :=
  { company_name := "c", store_name := "beta3", address := "addr-beta-three" }

/-- C1 strategy outcomes: `static_html` returns 1 store (below the
threshold of 3), `browser_automation` returns 3, `ai_inference` is never
reached. -/
def c1RunA : StrategyRun := { name := "static_html", outcome := .ok [sAlpha] }

/-- The succeeding second strategy of the C1 scenario. -/
def c1RunB : StrategyRun :=
  { name := "browser_automation", outcome := .ok [sBeta1, sBeta2, sBeta3] }

/-- The never-reached third strategy of the C1 scenario. -/
def c1RunC : StrategyRun := { name := "ai_inference", outcome := .ok [] }

/-- C1: the claim asserts that when an earlier strategy returned a
non-empty below-threshold store list and a later strategy meets the
threshold, the earlier stores are unioned with the winner's stores before
the final dedup.  They are not: the success branch executes
`all_stores = stores`, REPLACING the accumulated partial results, so
`sAlpha` is absent from the final result even though `strategy_used` is the
later strategy's name. -/
theorem scrape_partials_discarded_cex :
    (MultiStrategyScraper.scrape 3 "c" "https://c.example"
      [c1RunA, c1RunB, c1RunC]).strategy_used = "browser_automation" ∧
    sAlpha ∉ (MultiStrategyScraper.scrape 3 "c" "https://c.example"
      [c1RunA, c1RunB, c1RunC]).stores := by
  exact ⟨rfl, by decide⟩

/-- Loop invariant for the amended C1: when every strategy before `r`
returned fewer than `minStores` stores (or raised), and `r` returns a
non-empty list meeting the threshold, the loop stops at `r` with exactly
`r`'s stores, whatever was accumulated before. -/
theorem scrapeLoop_first_success (minStores : Nat) (r : StrategyRun)
    (post : List StrategyRun) (stores : List StoreInfo)
    (hout : r.outcome = .ok stores) (hne : ¬stores.isEmpty = true)
    (hlen : stores.length ≥ minStores) :
    ∀ (pre : List StrategyRun) (acc : List StoreInfo) (errs : List String),
      (∀ p ∈ pre, ∀ ss, p.outcome = .ok ss → ss.length < minStores) →
      (scrapeLoop minStores (pre ++ r :: post) acc errs).1 = stores ∧
      (scrapeLoop minStores (pre ++ r :: post) acc errs).2.1 = r.name := by
  intro pre
  induction pre with
  | nil =>
    intro acc errs _
    simp only [List.nil_append]
    unfold scrapeLoop
    rw [hout]
    dsimp only
    rw [if_pos ⟨hne, hlen⟩]
    exact ⟨rfl, rfl⟩
  | cons p pre ih =>
    intro acc errs hp
    have hrec : ∀ (acc : List StoreInfo) (errs : List String),
        (scrapeLoop minStores (pre ++ r :: post) acc errs).1 = stores ∧
        (scrapeLoop minStores (pre ++ r :: post) acc errs).2.1 = r.name :=
      fun a e => ih a e (fun q hq => hp q (List.mem_cons_of_mem _ hq))
    simp only [List.cons_append]
    unfold scrapeLoop
    cases hpo : p.outcome with
    | ok ss =>
      dsimp only
      have hlt := hp p (List.mem_cons_self _ _) ss hpo
      have hcond : ¬(¬ss.isEmpty = true ∧ ss.length ≥ minStores) := by
        intro hcon
        omega
      rw [if_neg hcond]
      by_cases hse : ¬ss.isEmpty = true
      · rw [if_pos hse]
        exact hrec (acc ++ ss) errs
      · rw [if_neg hse]
        exact hrec acc errs
    | error e =>
      dsimp only
      exact hrec acc (errs ++ ["戦略 " ++ p.name ++ " エラー: " ++ e])

/-- C1 (amended): when every strategy before `r` under-delivered (returned
fewer than `minStores` stores or raised) and `r` returns a non-empty store
list meeting the threshold, `strategy_used` is `r`'s name — but the final
stores are exactly `r`'s stores after the composite-key dedup: the earlier
partial results are DISCARDED on a later strategy's success, not unioned
(the union happens only in the no-strategy-succeeds `"combined"` case). -/
theorem scrape_first_success_wins (minStores : Nat) (company url : String)
    (pre post : List StrategyRun) (r : StrategyRun) (stores : List StoreInfo)
    (hout : r.outcome = .ok stores) (hne : ¬stores.isEmpty = true)
    (hlen : stores.length ≥ minStores) (hname : r.name ≠ "")
    (hpre : ∀ p ∈ pre, ∀ ss, p.outcome = .ok ss → ss.length < minStores) :
    (MultiStrategyScraper.scrape minStores company url (pre ++ r :: post)).strategy_used =
      r.name ∧
    (MultiStrategyScraper.scrape minStores company url (pre ++ r :: post)).stores =
      dedupByNameAddress stores := by
  obtain ⟨h1, h2⟩ :=
    scrapeLoop_first_success minStores r post stores hout hne hlen pre [] [] hpre
  unfold MultiStrategyScraper.scrape
  constructor
  · show (if _ = "" ∧ _ then "combined" else _) = r.name
    rw [h2]
    rw [if_neg (fun hcon => hname hcon.1)]
  · show dedupByNameAddress (scrapeLoop minStores (pre ++ r :: post) [] []).1 =
      dedupByNameAddress stores
    rw [h1]

/-- C1 witness: the amended theorem applied to the concrete scenario of the
counterexample (one under-threshold strategy, then a succeeding one). -/
theorem scrape_first_success_wins_witness :
    (c1RunB.outcome = .ok [sBeta1, sBeta2, sBeta3] ∧
      ([sBeta1, sBeta2, sBeta3] : List StoreInfo).length ≥ 3 ∧
      c1RunB.name ≠ "") ∧
    (MultiStrategyScraper.scrape 3 "c" "https://c.example"
      ([c1RunA] ++ c1RunB :: [c1RunC])).strategy_used = c1RunB.name ∧
    (MultiStrategyScraper.scrape 3 "c" "https://c.example"
      ([c1RunA] ++ c1RunB :: [c1RunC])).stores =
      dedupByNameAddress [sBeta1, sBeta2, sBeta3] := by
  refine ⟨⟨rfl, by decide, by decide⟩, ?_⟩
  exact scrape_first_success_wins 3 "c" "https://c.example" [c1RunA] [c1RunC] c1RunB
    [sBeta1, sBeta2, sBeta3] rfl (by decide) (by decide) (by decide)
    (by
      intro p hp ss hss
      rw [List.mem_singleton] at hp
      subst hp
      simp only [c1RunA] at hss
      injection hss with h
      rw [← h]
      decide)

/-- C3: every `ValidationResult` built by `PlayerValidator._parse_response`
with confidence below 0.6 carries `needs_manual_review = True`, and every
`StoreInvestigationResult` built by `StoreInvestigator._parse_ai_response`
with confidence below 0.7 carries `needs_verification = True`, regardless
of every other field: the flags are computed as disjunctions containing
exactly these threshold comparisons, and the uncertain fallback
constructors set the flag with confidences 0.4 / 0.3, also below the
thresholds. -/
theorem low_confidence_forces_review (loads : String → Option Json) :
    (∀ (response pn urlo : String) (us : Option UrlStatus) (r : ValidationResult),
      parse_response loads response pn urlo us = .ok r →
      r.confidence.ltF (.finite (mkRat 3 5)) = true → r.needs_manual_review = true) ∧
    (∀ (cn resp : String) (r : StoreInvestigationResult),
      parse_ai_response loads cn resp = .ok r →
      r.confidence < mkRat 7 10 → r.needs_verification = true) := by
  constructor
  · intro response pn urlo us r h hconf
    unfold parse_response at h
    cases he : extract_json loads response with
    | none =>
      rw [he] at h
      injection h with h
      rw [← h]
      rfl
    | some data =>
      rw [he] at h
      dsimp only at h
      split at h
      · injection h with h
        rw [← h]
        rfl
      · cases hct : changeTypeOfJson (objGetD data "change_type" (.str "none")) with
        | error e => rw [hct] at h; simp at h
        | ok changeType0 =>
          rw [hct] at h
          dsimp only at h
          cases hcf : pyFloatOfJson (objGetD data "confidence" (.num (mkRat 1 2))) with
          | error e => rw [hcf] at h; simp at h
          | ok confidence =>
            rw [hcf] at h
            dsimp only at h
            injection h with h
            rw [← h]
            rw [← h] at hconf
            simp only [Bool.or_eq_true, decide_eq_true_eq]
            right
            exact hconf
  · intro cn resp r h hconf
    unfold parse_ai_response at h
    have hunc : ∀ reason,
        StoreInvestigationResult.create_uncertain cn "ai" reason [] resp = r →
        r.needs_verification = true := by
      intro reason hr
      rw [← hr]
      rfl
    cases hf : fencedJsonContent resp with
    | none =>
      rw [hf] at h
      dsimp only at h
      cases hg : greedySpan '{' '}' resp with
      | none =>
        rw [hg] at h
        injection h with h
        exact hunc _ h
      | some js =>
        rw [hg] at h
        dsimp only at h
        cases hl : loads js with
        | none => rw [hl] at h; injection h with h; exact hunc _ h
        | some data =>
          rw [hl] at h
          dsimp only at h
          cases data with
          | obj kvs =>
            injection h with h
            rw [← h] at hconf
            rw [← h]
            simp only [Bool.or_eq_true, decide_eq_true_eq]
            left
            exact hconf
          | null => simp at h
          | bool b => simp at h
          | num q => simp at h
          | str s => simp at h
          | arr xs => simp at h
    | some c =>
      rw [hf] at h
      dsimp only at h
      cases hl : loads c with
      | none => rw [hl] at h; injection h with h; exact hunc _ h
      | some data =>
        rw [hl] at h
        dsimp only at h
        cases data with
        | obj kvs =>
          injection h with h
          rw [← h] at hconf
          rw [← h]
          simp only [Bool.or_eq_true, decide_eq_true_eq]
          left
          exact hconf
        | null => simp at h
        | bool b => simp at h
        | num q => simp at h
        | str s => simp at h
        | arr xs => simp at h

/-- C3 witness: both gates applied to unparseable responses, which take the
`create_uncertain` paths (confidence 0.4 < 0.6 and 0.3 < 0.7, flags set). -/
theorem low_confidence_forces_review_witness :
    (parse_response jsonParse "no json here" "p" "" none =
      .ok (ValidationResult.create_uncertain "p" "" "LLMからの応答を解析できませんでした") ∧
      (ValidationResult.create_uncertain "p" ""
        "LLMからの応答を解析できませんでした").confidence.ltF (.finite (mkRat 3 5)) = true ∧
      (ValidationResult.create_uncertain "p" ""
        "LLMからの応答を解析できませんでした").needs_manual_review = true) ∧
    (parse_ai_response jsonParse "c" "no json here" =
      .ok (StoreInvestigationResult.create_uncertain "c" "ai"
        "JSONを抽出できませんでした" [] "no json here") ∧
      (StoreInvestigationResult.create_uncertain "c" "ai"
        "JSONを抽出できませんでした" [] "no json here").confidence < mkRat 7 10 ∧
      (StoreInvestigationResult.create_uncertain "c" "ai"
        "JSONを抽出できませんでした" [] "no json here").needs_verification = true) := by
  refine ⟨⟨rfl, rfl, ?_⟩, ⟨rfl, by decide, ?_⟩⟩
  · exact (low_confidence_forces_review jsonParse).1 "no json here" "p" "" none _ rfl rfl
  · exact (low_confidence_forces_review jsonParse).2 "c" "no json here" _ rfl (by decide)

/-- C4: a batch over N entities yields exactly N results for BOTH batch
runners, with result `i` the single-entity outcome for input `i`.  For
`PlayerValidator.validate_batch`: when the LLM call for one player raises,
that player alone gets `ValidationResult.create_error` (review flag set)
because `validate_player` catches the exception.  For
`StoreInvestigator.investigate_batch`: when the LLM call of one company
raises inside its `investigate`, that company alone gets
`StoreInvestigationResult.create_error` with `needs_verification = true`,
caught by `_investigate_ai` / `investigate`.  Either way, every other
entry keeps its own entity's normal outcome — one entity's failure never
cancels or fails the rest of the batch. -/
theorem validate_batch_isolation (urlStat : String → UrlStatus)
    (llm : PlayerData → Except String String)
    (llmS : CompanyReq → Except String String) (loads : String → Option Json)
    (players : List PlayerData) (companies : List CompanyReq) (i j : Nat)
    (h : i < players.length) (hj : j < companies.length) :
    ((validate_batch urlStat llm loads players).length = players.length ∧
    (validate_batch urlStat llm loads players).get? i =
      some (validate_player urlStat llm loads (players.get ⟨i, h⟩)) ∧
    (∀ e, llm (players.get ⟨i, h⟩) = .error e →
      validate_player urlStat llm loads (players.get ⟨i, h⟩) =
        ValidationResult.create_error (players.get ⟨i, h⟩).player_name
          (players.get ⟨i, h⟩).official_url e ∧
      (validate_player urlStat llm loads (players.get ⟨i, h⟩)).needs_manual_review =
        true)) ∧
    ((investigate_batch (investigate llmS loads) companies).length = companies.length ∧
    (investigate_batch (investigate llmS loads) companies).get? j =
      some (investigate llmS loads (companies.get ⟨j, hj⟩)) ∧
    (∀ e, sanitize_input (companies.get ⟨j, hj⟩).company_name ≠ "" →
      llmS (sanReq (companies.get ⟨j, hj⟩)) = .error e →
      investigate llmS loads (companies.get ⟨j, hj⟩) =
        StoreInvestigationResult.create_error
          (sanitize_input (companies.get ⟨j, hj⟩).company_name) "ai" e ∧
      (investigate llmS loads (companies.get ⟨j, hj⟩)).needs_verification = true)) := by
  constructor
  · refine ⟨List.length_map _ _, ?_, ?_⟩
    · unfold validate_batch
      rw [List.get?_map, List.get?_eq_get h]
      rfl
    · intro e he
      constructor
      · unfold validate_player
        rw [he]
      · unfold validate_player
        rw [he]
        rfl
  · refine ⟨List.length_map _ _, ?_, ?_⟩
    · unfold investigate_batch
      rw [List.get?_map, List.get?_eq_get hj]
      rfl
    · intro e hname he
      have hname2 : ¬((sanReq (companies.get ⟨j, hj⟩)).company_name = "") := hname
      have hmain : investigate llmS loads (companies.get ⟨j, hj⟩) =
          investigate_ai llmS loads (sanReq (companies.get ⟨j, hj⟩)) := by
        unfold investigate
        rw [if_neg hname2]
      constructor
      · rw [hmain]
        unfold investigate_ai
        rw [he]
        rfl
      · rw [hmain]
        unfold investigate_ai
        rw [he]
        rfl

/-- URL-status oracle for the batch witnesses. -/
def wUrlStat : String → UrlStatus := fun _ => { status_code := 200 }

/-- LLM oracle for the batch witnesses: raises exactly for player `"B"`. -/
def wLlm : PlayerData → Except String String :=
  fun p => if p.player_name = "B" then .error "boom" else .ok "no json"

/-- Three-player batch for the C4 and C10 witnesses. -/
def wPlayers : List PlayerData :=
  [{ player_name := "A" }, { player_name := "B" }, { player_name := "C" }]

/-- Two-company batch for the C4 and C10 witnesses. -/
def wCompanies : List CompanyReq := [{ company_name := "X" }, { company_name := "Y" }]

/-- Store-side LLM oracle for the C4 witness: raises exactly for company
`"Y"`. -/
def wLlmS : CompanyReq → Except String String :=
  fun c => if c.company_name = "Y" then .error "boom" else .ok "no json"

/-- C4 witness: the isolation theorem applied at index 1 of a 3-player
batch whose middle LLM call raises, and at index 1 of a 2-company batch
whose second store-side LLM call raises. -/
theorem validate_batch_isolation_witness :
    (1 < wPlayers.length ∧ wLlm (wPlayers.get ⟨1, by decide⟩) = .error "boom" ∧
      1 < wCompanies.length ∧
      sanitize_input (wCompanies.get ⟨1, by decide⟩).company_name ≠ "" ∧
      wLlmS (sanReq (wCompanies.get ⟨1, by decide⟩)) = .error "boom") ∧
    ((validate_batch wUrlStat wLlm jsonParse wPlayers).length = wPlayers.length ∧
    (validate_batch wUrlStat wLlm jsonParse wPlayers).get? 1 =
      some (validate_player wUrlStat wLlm jsonParse (wPlayers.get ⟨1, by decide⟩)) ∧
    validate_player wUrlStat wLlm jsonParse (wPlayers.get ⟨1, by decide⟩) =
      ValidationResult.create_error "B" "" "boom" ∧
    (validate_player wUrlStat wLlm jsonParse
      (wPlayers.get ⟨1, by decide⟩)).needs_manual_review = true) ∧
    ((investigate_batch (investigate wLlmS jsonParse) wCompanies).length =
      wCompanies.length ∧
    (investigate_batch (investigate wLlmS jsonParse) wCompanies).get? 1 =
      some (investigate wLlmS jsonParse (wCompanies.get ⟨1, by decide⟩)) ∧
    investigate wLlmS jsonParse (wCompanies.get ⟨1, by decide⟩) =
      StoreInvestigationResult.create_error "Y" "ai" "boom" ∧
    (investigate wLlmS jsonParse
      (wCompanies.get ⟨1, by decide⟩)).needs_verification = true) := by
  have h := validate_batch_isolation wUrlStat wLlm wLlmS jsonParse wPlayers wCompanies
    1 1 (by decide) (by decide)
  have he := h.1.2.2 "boom" rfl
  have hs := h.2.2.2 "boom" (by decide) rfl
  exact ⟨⟨by decide, rfl, by decide, by decide, rfl⟩,
    ⟨h.1.1, h.1.2.1, he.1, he.2⟩, ⟨h.2.1, h.2.2.1, hs.1, hs.2⟩⟩

/-- Any pair stored in the completion list carries the single-entity result
for its own index, so the by-index lookup of `gatherByIndex` recovers
exactly task `i`'s result whenever `i` was scheduled. -/
theorem find_completion_at {α β : Type} (f : α → β) (entities : List α)
    (schedule : List Nat) (i : Nat) (p : α)
    (hi : i ∈ schedule) (hp : entities.get? i = some p) :
    (schedule.filterMap (fun j => (entities.get? j).map (fun e => (j, f e)))).find?
      (fun c => c.1 = i) = some (i, f p) := by
  induction schedule with
  | nil => cases hi
  | cons j rest ih =>
    rw [List.filterMap_cons]
    cases hj : entities.get? j with
    | none =>
      simp only [Option.map_none']
      have hmem : i ∈ rest := by
        rcases List.mem_cons.mp hi with rfl | hm
        · rw [hp] at hj
          cases hj
        · exact hm
      exact ih hmem
    | some e =>
      simp only [Option.map_some']
      by_cases hji : j = i
      · subst hji
        have hep : e = p := by
          rw [hp] at hj
          injection hj with hj
          exact hj.symm
        rw [List.find?_cons_of_pos _ (by simp)]
        rw [hep]
      · rw [List.find?_cons_of_neg _ (by simp [hji])]
        have hmem : i ∈ rest := by
          rcases List.mem_cons.mp hi with rfl | hm
          · exact absurd rfl hji
          · exact hm
        exact ih hmem

/-- Collecting the per-index lookups over `range n` reproduces the plain
input-order map. -/
theorem range_filterMap_get {α β : Type} (l : List α) (f : α → β) :
    (List.range l.length).filterMap (fun i => (l.get? i).map f) = l.map f := by
  induction l with
  | nil => rfl
  | cons a t ih =>
    rw [List.length_cons, List.range_succ_eq_map, List.filterMap_cons]
    dsimp only [List.get?]
    rw [List.filterMap_map]
    have hcomp : ((fun i => ((a :: t).get? i).map f) ∘ Nat.succ) =
        fun i => (t.get? i).map f := by
      funext i
      rfl
    rw [hcomp, ih]
    simp only [Option.map_some']
    rw [List.map_cons]

/-- Schedule-independence of a gathered batch: under any completion order
that is a permutation of the task indices, the reassembled output equals
the input-order map. -/
theorem batchWithSchedule_eq {α β : Type} (f : α → β) (entities : List α)
    (schedule : List Nat) (hperm : schedule.Perm (List.range entities.length)) :
    batchWithSchedule f entities schedule = entities.map f := by
  unfold batchWithSchedule gatherByIndex
  rw [← range_filterMap_get entities f]
  apply List.filterMap_congr
  intro i hi
  rw [List.mem_range] at hi
  obtain ⟨p, hp⟩ : ∃ p, entities.get? i = some p := by
    rw [List.get?_eq_get hi]
    exact ⟨_, rfl⟩
  rw [find_completion_at f entities schedule i p (hperm.mem_iff.mpr
    (List.mem_range.mpr hi)) hp, hp]
  rfl

/-- C10: for both batch runners, whatever order the semaphore-gated tasks
complete in (any permutation of the task indices), `asyncio.gather` hands
back the results in submission order: result `i` belongs to input entity
`i`. -/
theorem batch_results_in_input_order
    (urlStat : String → UrlStatus) (llm : PlayerData → Except String String)
    (loads : String → Option Json) (players : List PlayerData)
    (inv : CompanyReq → StoreInvestigationResult) (companies : List CompanyReq)
    (sched1 sched2 : List Nat)
    (h1 : sched1.Perm (List.range players.length))
    (h2 : sched2.Perm (List.range companies.length)) :
    batchWithSchedule (validate_player urlStat llm loads) players sched1 =
      validate_batch urlStat llm loads players ∧
    batchWithSchedule inv companies sched2 = investigate_batch inv companies :=
  ⟨batchWithSchedule_eq _ players sched1 h1, batchWithSchedule_eq _ companies sched2 h2⟩

/-- Per-company investigation oracle for the C10 witness. -/
def wInv : CompanyReq → StoreInvestigationResult :=
  fun c => StoreInvestigationResult.create_error c.company_name "ai" "offline"

/-- C10 witness: the order theorem applied to concrete out-of-order
completion schedules. -/
theorem batch_results_in_input_order_witness :
    (([2, 0, 1] : List Nat).Perm (List.range wPlayers.length) ∧
      ([1, 0] : List Nat).Perm (List.range wCompanies.length)) ∧
    batchWithSchedule (validate_player wUrlStat wLlm jsonParse) wPlayers [2, 0, 1] =
      validate_batch wUrlStat wLlm jsonParse wPlayers ∧
    batchWithSchedule wInv wCompanies [1, 0] = investigate_batch wInv wCompanies := by
  have h := batch_results_in_input_order wUrlStat wLlm jsonParse wPlayers wInv wCompanies
    [2, 0, 1] [1, 0] (by decide) (by decide)
  exact ⟨⟨by decide, by decide⟩, h.1, h.2⟩
